import Mathlib

/-!
# TidbCluster control: the update loop and its test double

A shallow embedding of `pkg/controller/tidbcluster_control.go`.

* Pointers of type `*v1alpha1.TidbCluster` are addresses (`Addr`) into an explicit heap, so
  that assignment through a pointer (`tc.Status = *status`), rebinding of a pointer variable
  (`tc = updated.DeepCopy()`) and allocation are distinguished.  Go is memory safe: a
  non-nil pointer always designates an object, hence the heap is a total map.  Pointers
  handed to the functions below are non-nil by their type.
* The collaborators (`rtc.cli`, `rtc.tcLister`, `rtc.recorder`, `glog`, `utilruntime`) are
  interfaces.  The clientset and the lister are arbitrary deterministic transition functions
  on a state `σ`; every call made to a collaborator is appended to a log.
* `retry.RetryOnConflict`, `wait.ExponentialBackoff`, `errors.IsConflict`, `strings.Title` and
  `strings.ToLower` are library functions of client-go, apimachinery and the Go standard
  library; they are embedded after their library definitions, with the tables of package
  `unicode` as a parameter.  Sleeping between attempts is not observable here and is left
  out.
-/

namespace TidbOperator

/-! ## Go values -/

/-- The Go `error` values the program can tell apart: the sentinel `wait.ErrWaitTimeout`, and
any other error, of which only the text (`Error()`) and whether `errors.IsConflict` holds of it
are observed.  A nil `error` is `none : Option GoError`. -/
inductive GoError where
  | ErrWaitTimeout : GoError
  | other (conflict : Bool) (text : String) : GoError
  deriving DecidableEq, Repr

/-- The method `Error()` of an error value; `fmt` verbs `%s` and `%v` print it. -/
def GoError.Error : GoError → String
  | .ErrWaitTimeout => "timed out waiting for the condition"
  | .other _ text => text

/-- The function `errors.IsConflict` of apimachinery: the error carries the status reason
Conflict.  The sentinel `wait.ErrWaitTimeout` is a plain `errors.New` value and carries none. -/
def IsConflict : GoError → Bool
  | .ErrWaitTimeout => false
  | .other conflict _ => conflict

/-- The type `v1alpha1.TidbCluster`, whose declaration is outside this file.  The program
reads `Namespace` and `Name` (through `GetNamespace`, `GetName`) and reads and assigns
`Status`; every other field is carried along in `Rest`.  The status type `S` and the type `B`
of the remaining fields are parameters. -/
structure TidbCluster (B S : Type) where
  Namespace : String
  Name : String
  Rest : B
  Status : S
  deriving DecidableEq, Repr

/-- A non-nil pointer `*v1alpha1.TidbCluster`. -/
abbrev Addr := Nat

/-- One call to a collaborator, with what it was given and what it answered. -/
inductive Effect (B S : Type) where
  -- rtc.cli.PingcapV1alpha1().TidbClusters(ns).Update(tc): the namespace, the object tc
  -- points to at the time of the call, and the two results
  | storeUpdate (ns : String) (tc : TidbCluster B S) (result : Option (TidbCluster B S))
      (err : Option GoError)
  -- glog.Infof
  | glogInfof (msg : String)
  -- glog.Errorf
  | glogErrorf (msg : String)
  -- rtc.tcLister.TidbClusters(ns).Get(name) and its answer: an error, or the pointer to the
  -- object the cache holds
  | listerGet (ns name : String) (result : GoError ⊕ Addr)
  -- utilruntime.HandleError, with an error of the given text
  | handleError (msg : String)
  -- recorder.Event(object, eventtype, reason, message)
  | event (object : Addr) (eventtype reason message : String)
  deriving DecidableEq, Repr

/-- The clientset `rtc.cli` and the lister `rtc.tcLister`, as transition functions on the
state `σ` of everything outside the controller (API server, informer cache).  `Update` is given
the namespace and the object behind the pointer and answers `(result, err)`; `Get` answers an
error or the pointer to the cached object.  Neither assigns through a pointer. -/
structure Collaborators (σ B S : Type) where
  Update : σ → String → TidbCluster B S → σ × Option (TidbCluster B S) × Option GoError
  Get : σ → String → String → σ × (GoError ⊕ Addr)

/-- The state the program runs in: the state of the collaborators, the heap of `TidbCluster`
objects, the next free address, and the log of collaborator calls (oldest first). -/
structure World (σ B S : Type) where
  ext : σ
  heap : Addr → TidbCluster B S
  next : Addr
  log : List (Effect B S)

/-- The generated method `(*TidbCluster).DeepCopy` on a non-nil receiver: a new object with
the same contents is allocated, and its address returned. -/
def DeepCopy {σ B S : Type} (w : World σ B S) (p : Addr) : Addr × World σ B S :=
  (w.next, { w with heap := Function.update w.heap w.next (w.heap p), next := w.next + 1 })

/-! ## The retry library -/

/-- The type `wait.Backoff`; only `Steps` bounds the number of attempts (`Duration`, `Factor`
and `Jitter` set the length of the sleeps). -/
structure Backoff where
  Steps : Int
  deriving DecidableEq, Repr

/-- The variable `retry.DefaultRetry` of client-go (`Steps: 5`). -/
def DefaultRetry : Backoff := { Steps := 5 }

/-- The loop of `wait.ExponentialBackoff`, `steps` iterations remaining:
`if ok, err := condition(); err != nil || ok { return err }`, and `ErrWaitTimeout` when the
iterations are used up. -/
def backoffLoop {α : Type} (condition : α → (Bool × Option GoError) × α) :
    Nat → α → Option GoError × α
  | 0, s => (some GoError.ErrWaitTimeout, s)
  | n + 1, s =>
    match condition s with
    | ((ok, err), s1) => if err.isSome || ok then (err, s1) else backoffLoop condition n s1

/-- The function `wait.ExponentialBackoff`: `for i := 0; i < backoff.Steps; i++`. -/
def ExponentialBackoff {α : Type} (backoff : Backoff)
    (condition : α → (Bool × Option GoError) × α) (s : α) : Option GoError × α :=
  backoffLoop condition backoff.Steps.toNat s

/-- The condition closure inside `retry.RetryOnConflict`; its state is the state of `fn`
together with the captured variable `lastConflictErr`. -/
def retryCondition {α : Type} (fn : α → Option GoError × α) (p : α × Option GoError) :
    (Bool × Option GoError) × (α × Option GoError) :=
  match fn p.1 with
  | (none, s1) => ((true, none), (s1, p.2))
  | (some e, s1) =>
    if IsConflict e then ((false, none), (s1, some e)) else ((false, some e), (s1, p.2))

/-- The function `retry.RetryOnConflict`: run `fn` under `wait.ExponentialBackoff`, going on
after a conflict error, stopping at success and at any other error; when the backoff reports
`wait.ErrWaitTimeout`, the last conflict error is returned in its place. -/
def RetryOnConflict {α : Type} (backoff : Backoff) (fn : α → Option GoError × α) (s : α) :
    Option GoError × α :=
  match ExponentialBackoff backoff (retryCondition fn) (s, none) with
  | (err, (s1, lastConflictErr)) =>
    if err = some GoError.ErrWaitTimeout then (lastConflictErr, s1) else (err, s1)

/-! ## Strings -/

/-- The tables of package `unicode` that `strings.Title` and `strings.ToLower` consult for
runes above `unicode.MaxASCII`: the classes behind `unicode.IsLetter`, `unicode.IsDigit` and
`unicode.IsSpace`, and the case mappings `unicode.To(unicode.LowerCase, r)` and
`unicode.To(unicode.TitleCase, r)`.  The tables belong to the Go release and are taken as a
parameter. -/
structure UnicodeTables where
  IsLetter : Char → Bool
  IsDigit : Char → Bool
  IsSpace : Char → Bool
  ToLower : Char → Char
  ToTitle : Char → Char

/-- The constant `unicode.MaxASCII`. -/
def MaxASCII : Char := '\x7f'

/-- The function `unicode.ToLower`: below `MaxASCII` the letters `A` to `Z` are shifted by
`'a' - 'A'`, above it the table decides. -/
def unicodeToLower (u : UnicodeTables) (r : Char) : Char :=
  if r ≤ MaxASCII then
    if 'A' ≤ r ∧ r ≤ 'Z' then Char.ofNat (r.toNat + ('a'.toNat - 'A'.toNat)) else r
  else u.ToLower r

/-- The function `unicode.ToTitle`: title case is upper case for ASCII, above `MaxASCII` the
table decides. -/
def unicodeToTitle (u : UnicodeTables) (r : Char) : Char :=
  if r ≤ MaxASCII then
    if 'a' ≤ r ∧ r ≤ 'z' then Char.ofNat (r.toNat - ('a'.toNat - 'A'.toNat)) else r
  else u.ToTitle r

/-- The function `isSeparator` of package `strings`: ASCII alphanumerics and the underscore
are not separators and every other ASCII rune is; above ASCII, letters and digits are not
separators, and of the rest only spaces are. -/
def isSeparator (u : UnicodeTables) (r : Char) : Bool :=
  if r ≤ MaxASCII then
    if '0' ≤ r ∧ r ≤ '9' then false
    else if 'a' ≤ r ∧ r ≤ 'z' then false
    else if 'A' ≤ r ∧ r ≤ 'Z' then false
    else if r = '_' then false
    else true
  else if u.IsLetter r || u.IsDigit r then false
  else u.IsSpace r

/-- The mapping closure of `strings.Title`, run over the runes with its captured variable
`prev`: a rune that follows a separator is mapped by `unicode.ToTitle`. -/
def titleRunes (u : UnicodeTables) : Char → List Char → List Char
  | _, [] => []
  | prev, r :: rs => (if isSeparator u prev then unicodeToTitle u r else r) :: titleRunes u r rs

/-- The function `strings.Title`: `strings.Map` of the closure above, `prev` starting as a
blank.  A Lean string is a sequence of Unicode scalar values, that is a Go string of valid
UTF-8. -/
def Title (u : UnicodeTables) (s : String) : String :=
  String.mk (titleRunes u ' ' s.data)

/-- The function `strings.ToLower`: `strings.Map(unicode.ToLower, s)`; the shortcut the
library takes for strings of ASCII only computes the same string. -/
def ToLower (u : UnicodeTables) (s : String) : String :=
  String.mk (s.data.map (unicodeToLower u))

/-- The constant `corev1.EventTypeNormal`. -/
def EventTypeNormal : String := "Normal"

/-- The constant `corev1.EventTypeWarning`. -/
def EventTypeWarning : String := "Warning"

/-! ## The real control -/

/-- Append one collaborator call to the log. -/
def World.emit {σ B S : Type} (w : World σ B S) (e : Effect B S) : World σ B S :=
  { w with log := w.log ++ [e] }

/-- The variables of `UpdateTidbCluster` that the retried closure captures and assigns: the
pointer variable `tc` and the result variable `updateTC`, next to the world. -/
structure Frame (σ B S : Type) where
  world : World σ B S
  tc : Addr
  updateTC : Option (TidbCluster B S)

/-- The closure passed to `retry.RetryOnConflict` in `UpdateTidbCluster`; `ns`, `tcName` and
`status` are the captured variables that are never assigned again. -/
def updateFn {σ B S : Type} (c : Collaborators σ B S) (ns tcName : String) (status : S)
    (f : Frame σ B S) : Option GoError × Frame σ B S :=
  -- tc.Status = *status
  let w1 : World σ B S :=
    { f.world with
      heap := Function.update f.world.heap f.tc { f.world.heap f.tc with Status := status } }
  -- updateTC, updateErr = rtc.cli.PingcapV1alpha1().TidbClusters(ns).Update(tc)
  match c.Update w1.ext ns (w1.heap f.tc) with
  | (x1, updateTC, updateErr) =>
    let w2 := World.emit { w1 with ext := x1 }
      (Effect.storeUpdate ns (w1.heap f.tc) updateTC updateErr)
    match updateErr with
    | none =>
      let w3 := w2.emit
        (Effect.glogInfof ("TidbCluster: [" ++ ns ++ "/" ++ tcName ++ "] updated successfully"))
      (none, { world := w3, tc := f.tc, updateTC := updateTC })
    | some e =>
      let w3 := w2.emit (Effect.glogErrorf
        ("failed to update TidbCluster: [" ++ ns ++ "/" ++ tcName ++ "], error: " ++ e.Error))
      -- updated, err := rtc.tcLister.TidbClusters(ns).Get(tcName)
      match c.Get w3.ext ns tcName with
      | (x2, Sum.inr updated) =>
        let w4 := World.emit { w3 with ext := x2 } (Effect.listerGet ns tcName (Sum.inr updated))
        -- tc = updated.DeepCopy()
        match DeepCopy w4 updated with
        | (p, w5) => (some e, { world := w5, tc := p, updateTC := updateTC })
      | (x2, Sum.inl err) =>
        let w4 := World.emit { w3 with ext := x2 } (Effect.listerGet ns tcName (Sum.inl err))
        let w5 := w4.emit (Effect.handleError
          ("error getting updated TidbCluster " ++ ns ++ "/" ++ tcName ++ " from lister: "
            ++ err.Error))
        (some e, { world := w5, tc := f.tc, updateTC := updateTC })

/-- The method `recordTidbClusterEvent`: one call of `recorder.Event`. -/
def recordTidbClusterEvent {σ B S : Type} (u : UnicodeTables) (w : World σ B S)
    (verb : String) (tc : Addr) (err : Option GoError) : World σ B S :=
  let tcName := (w.heap tc).Name
  match err with
  | none =>
    w.emit (Effect.event tc EventTypeNormal ("Successful" ++ Title u verb)
      (ToLower u verb ++ " TidbCluster " ++ tcName ++ " successful"))
  | some e =>
    w.emit (Effect.event tc EventTypeWarning ("Failed" ++ Title u verb)
      (ToLower u verb ++ " TidbCluster " ++ tcName ++ " failed error: " ++ e.Error))

/-- The body of `UpdateTidbCluster` up to and including the call of `retry.RetryOnConflict`:
the error of the retry and the final values of the captured variables.  The retry policy
`retry.DefaultRetry` is a package variable of client-go and is taken as the argument
`defaultRetry`. -/
def retryUpdate {σ B S : Type} (c : Collaborators σ B S) (defaultRetry : Backoff)
    (w : World σ B S) (tc : Addr) : Option GoError × Frame σ B S :=
  let ns := (w.heap tc).Namespace
  let tcName := (w.heap tc).Name
  -- status := tc.Status.DeepCopy()
  let status := (w.heap tc).Status
  RetryOnConflict defaultRetry (updateFn c ns tcName status)
    { world := w, tc := tc, updateTC := none }

/-- The method `(*realTidbClusterControl).UpdateTidbCluster`: the pair `(updateTC, err)` it
returns, and the world it leaves. -/
def UpdateTidbCluster {σ B S : Type} (u : UnicodeTables) (c : Collaborators σ B S)
    (defaultRetry : Backoff) (w : World σ B S) (tc : Addr) :
    (Option (TidbCluster B S) × Option GoError) × World σ B S :=
  match retryUpdate c defaultRetry w tc with
  | (err, f) => ((f.updateTC, err), recordTidbClusterEvent u f.world "update" f.tc err)

/-! ## The fake control -/

/-- Modelled from the spec: the type `requestTracker` and its methods `inc`, `errorReady` and
`reset` are declared outside this file.  The spec gives it three fields, the number of calls
made (starting at 0), the configured error and the configured trigger index; the field names
`err` and `after` and the initial value `requestTracker{0, nil, 0}` are those the source
uses. -/
structure requestTracker where
  requests : Int
  err : Option GoError
  after : Int
  deriving DecidableEq, Repr

/-- Modelled from the spec: the method `requestTracker.inc` is missing; it increments the
number of calls made. -/
def requestTracker.inc (rt : requestTracker) : requestTracker :=
  { rt with requests := rt.requests + 1 }

/-- Modelled from the spec: the method `requestTracker.errorReady` is missing; it holds when
the tracker is armed, that is an error is configured, and the number of calls made equals the
trigger index. -/
def requestTracker.errorReady (rt : requestTracker) : Bool :=
  rt.err.isSome && rt.requests == rt.after

/-- Modelled from the spec: the method `requestTracker.reset` is missing; it disarms the
tracker and puts the trigger index back to zero. -/
def requestTracker.reset (rt : requestTracker) : requestTracker :=
  { rt with err := none, after := 0 }

/-- The type `FakeTidbClusterControl`, with the state `ι` of its `cache.Indexer`; the field
`TcLister` is not used by the methods of this file. -/
structure FakeTidbClusterControl (ι : Type) where
  TcIndexer : ι
  updateTidbClusterTracker : requestTracker

/-- The function `NewFakeTidbClusterControl`: the tracker starts as `requestTracker{0, nil, 0}`. -/
def NewFakeTidbClusterControl {ι : Type} (indexer : ι) : FakeTidbClusterControl ι :=
  { TcIndexer := indexer, updateTidbClusterTracker := { requests := 0, err := none, after := 0 } }

/-- The method `SetUpdateTidbClusterError`. -/
def FakeTidbClusterControl.SetUpdateTidbClusterError {ι : Type} (ssc : FakeTidbClusterControl ι)
    (err : Option GoError) (after : Int) : FakeTidbClusterControl ι :=
  { ssc with updateTidbClusterTracker := { ssc.updateTidbClusterTracker with err := err, after := after } }

/-- The method `(*FakeTidbClusterControl).UpdateTidbCluster`.  `indexerUpdate` is the method
`Update` of the `cache.Indexer`, `T` the type of what `tc` stands for.  The deferred calls run
after the results are evaluated, last registered first: `reset` (when registered), then
`inc`. -/
def FakeTidbClusterControl.UpdateTidbCluster {ι T : Type}
    (indexerUpdate : ι → T → ι × Option GoError) (ssc : FakeTidbClusterControl ι) (tc : T) :
    (T × Option GoError) × FakeTidbClusterControl ι :=
  if ssc.updateTidbClusterTracker.errorReady then
    -- return tc, ssc.updateTidbClusterTracker.err
    ((tc, ssc.updateTidbClusterTracker.err),
      { ssc with updateTidbClusterTracker := ssc.updateTidbClusterTracker.reset.inc })
  else
    -- return tc, ssc.TcIndexer.Update(tc)
    match indexerUpdate ssc.TcIndexer tc with
    | (ix, err) =>
      ((tc, err), { TcIndexer := ix, updateTidbClusterTracker := ssc.updateTidbClusterTracker.inc })

/-- The record an attempt hands to the store: the object behind `tc` with the saved status
assigned. -/
def Frame.written {σ B S : Type} (f : Frame σ B S) (status : S) : TidbCluster B S :=
  { f.world.heap f.tc with Status := status }

/-- A call of the fake delegates to the indexer: it returns the input record with the
indexer's error, leaves the indexer as `indexerUpdate` left it, and counts the call. -/
def FakeTidbClusterControl.delegates {ι T : Type} (indexerUpdate : ι → T → ι × Option GoError)
    (ssc : FakeTidbClusterControl ι) (tc : T) : Prop :=
  ssc.UpdateTidbCluster indexerUpdate tc =
    ((tc, (indexerUpdate ssc.TcIndexer tc).2),
      { TcIndexer := (indexerUpdate ssc.TcIndexer tc).1
        updateTidbClusterTracker := ssc.updateTidbClusterTracker.inc })

/-- Every call of a sequence of calls of the fake, made one after the other without
configuring it in between, delegates to the indexer. -/
def FakeTidbClusterControl.alwaysDelegates {ι T : Type}
    (indexerUpdate : ι → T → ι × Option GoError) :
    FakeTidbClusterControl ι → List T → Prop
  | _, [] => True
  | ssc, tc :: later =>
    ssc.delegates indexerUpdate tc ∧
      alwaysDelegates indexerUpdate (ssc.UpdateTidbCluster indexerUpdate tc).2 later

/-! ## Reading the log -/

/-- The number of store calls (`Update` on the clientset) in a log. -/
def storeCalls {B S : Type} : List (Effect B S) → Nat
  | [] => 0
  | Effect.storeUpdate _ _ _ _ :: l => storeCalls l + 1
  | _ :: l => storeCalls l

/-- The records handed to the store, in the order of the calls. -/
def storeWrites {B S : Type} : List (Effect B S) → List (TidbCluster B S)
  | [] => []
  | Effect.storeUpdate _ tc _ _ :: l => tc :: storeWrites l
  | _ :: l => storeWrites l

/-- The answers `(result, err)` of the store calls, in the order of the calls. -/
def storeAnswers {B S : Type} :
    List (Effect B S) → List (Option (TidbCluster B S) × Option GoError)
  | [] => []
  | Effect.storeUpdate _ _ r e :: l => (r, e) :: storeAnswers l
  | _ :: l => storeAnswers l

/-- Whether the effect is a call of `recorder.Event`. -/
def Effect.isEvent {B S : Type} : Effect B S → Bool
  | Effect.event _ _ _ _ => true
  | _ => false

/-- Whether the effect is a store call. -/
def Effect.isStoreUpdate {B S : Type} : Effect B S → Bool
  | Effect.storeUpdate _ _ _ _ => true
  | _ => false

/-- What a call added to the log: the log it leaves, without the entries that were there
before. -/
def World.since {σ B S : Type} (w1 w0 : World σ B S) : List (Effect B S) :=
  w1.log.drop w0.log.length

/-! ## Concrete scenarios -/

/-- A record with a phase as its status. -/
def mkCluster (ns name phase : String) : TidbCluster Unit String :=
  { Namespace := ns, Name := name, Rest := (), Status := phase }

/-- The conflict error of the scenarios. -/
def conflictErr : GoError := GoError.other true "conflict"

/-- A store error that is not a conflict. -/
def serverErr : GoError := GoError.other false "internal error"

/-- Collaborators whose state is the number of store calls made so far: call number `n`
(counted from 1) fails with `fails n` when that is an error and answers a nil object, and
succeeds answering the written record otherwise; the lister always answers `lookup`. -/
def scheduled (fails : Nat → Option GoError) (lookup : GoError ⊕ Addr) :
    Collaborators Nat Unit String where
  Update n _ tc := match fails (n + 1) with
    | none => (n + 1, some tc, none)
    | some e => (n + 1, none, some e)
  Get n _ _ := (n, lookup)

/-- A world with the caller's record at address 0 and the cached snapshot at address 1. -/
def scenarioWorld : World Nat Unit String where
  ext := 0
  heap := fun a =>
    if a = 0 then mkCluster "default" "cluster-a" "Scaling" else mkCluster "default" "cluster-a" "Idle"
  next := 2
  log := []

/-- Tables for the scenarios: their strings are ASCII, so that the tables are never
consulted. -/
def scenarioTables : UnicodeTables where
  IsLetter _ := false
  IsDigit _ := false
  IsSpace _ := false
  ToLower r := r
  ToTitle r := r

/-- The store fails with a conflict at call 1 only; the lister answers the snapshot at
address 1. -/
def conflictOnce : Collaborators Nat Unit String :=
  scheduled (fun n => if n = 1 then some conflictErr else none) (Sum.inr 1)

/-- The store fails with a conflict at call 2 only. -/
def conflictAtSecond : Collaborators Nat Unit String :=
  scheduled (fun n => if n = 2 then some conflictErr else none) (Sum.inr 1)

/-- The store fails with a conflict at every call; the lister answers the snapshot at
address 1. -/
def alwaysConflict : Collaborators Nat Unit String :=
  scheduled (fun _ => some conflictErr) (Sum.inr 1)

/-- The store fails at every call with an error that is no conflict. -/
def alwaysServerError : Collaborators Nat Unit String :=
  scheduled (fun _ => some serverErr) (Sum.inr 1)

/-- The store fails with a conflict at every call and the lister fails as well. -/
def conflictAndMiss : Collaborators Nat Unit String :=
  scheduled (fun _ => some conflictErr) (Sum.inl (GoError.other false "not found"))

/-- The frame `UpdateTidbCluster` starts its retry with in `scenarioWorld`, for the caller's
record at address 0. -/
def scenarioFrame : Frame Nat Unit String :=
  { world := scenarioWorld, tc := 0, updateTC := none }

/-- An indexer that keeps the names it was given, latest first, and never fails. -/
def listIndexer (names : List String) (tc : String) : List String × Option GoError :=
  (tc :: names, none)

/-- A fake configured to fail at once: `SetUpdateTidbClusterError(conflict, 0)` on a new
fake. -/
def armedFake : FakeTidbClusterControl (List String) :=
  (NewFakeTidbClusterControl []).SetUpdateTidbClusterError (some conflictErr) 0

/-! ## The retry loop: proof rules -/

/-- Proof rule for the loop of `wait.ExponentialBackoff` over `n` iterations: `I i` holds
before iteration `i`, an iteration either ends the loop establishing `Q` or re-establishes
`I (i + 1)`, and running out of iterations establishes `Q` for `ErrWaitTimeout`. -/
theorem backoffLoop_rule {α : Type} (condition : α → (Bool × Option GoError) × α) (n : Nat)
    (I : Nat → α → Prop) (Q : Option GoError → α → Prop)
    (hstep : ∀ i s, i < n → I i s →
      (((condition s).1.2.isSome || (condition s).1.1) = true →
        Q (condition s).1.2 (condition s).2) ∧
      (((condition s).1.2.isSome || (condition s).1.1) = false → I (i + 1) (condition s).2))
    (hend : ∀ s, I n s → Q (some GoError.ErrWaitTimeout) s) :
    ∀ m i s, i + m = n → I i s →
      Q (backoffLoop condition m s).1 (backoffLoop condition m s).2 := by
  intro m
  induction m with
  | zero =>
    intro i s him hI
    have hi : i = n := by omega
    subst hi
    simpa [backoffLoop] using hend s hI
  | succ m ih =>
    intro i s him hI
    have hlt : i < n := by omega
    obtain ⟨h1, h2⟩ := hstep i s hlt hI
    rcases hc : condition s with ⟨⟨ok, err⟩, s1⟩
    rw [hc] at h1 h2
    simp only [backoffLoop, hc]
    by_cases hb : (err.isSome || ok) = true
    · rw [if_pos hb]
      exact h1 hb
    · rw [if_neg hb]
      have hb2 : (err.isSome || ok) = false := by simpa using hb
      exact ih (i + 1) s1 (by omega) (h2 hb2)

/-- Proof rule for `retry.RetryOnConflict`: `I i s last` holds before attempt `i` of `fn` in
state `s` with `lastConflictErr = last`; `Q err s` is established for what is returned. -/
theorem RetryOnConflict_rule {α : Type} (backoff : Backoff) (fn : α → Option GoError × α)
    (I : Nat → α → Option GoError → Prop) (Q : Option GoError → α → Prop)
    (hok : ∀ i s last, i < backoff.Steps.toNat → I i s last → (fn s).1 = none →
      Q none (fn s).2)
    (hconflict : ∀ i s last e, i < backoff.Steps.toNat → I i s last → (fn s).1 = some e →
      IsConflict e = true → I (i + 1) (fn s).2 (some e))
    (hother : ∀ i s last e, i < backoff.Steps.toNat → I i s last → (fn s).1 = some e →
      IsConflict e = false →
      Q (if e = GoError.ErrWaitTimeout then last else some e) (fn s).2)
    (hend : ∀ s last, I backoff.Steps.toNat s last → Q last s)
    (s : α) (h0 : I 0 s none) :
    Q (RetryOnConflict backoff fn s).1 (RetryOnConflict backoff fn s).2 := by
  have key := backoffLoop_rule (retryCondition fn) backoff.Steps.toNat
    (fun i p => I i p.1 p.2)
    (fun err p => Q (if err = some GoError.ErrWaitTimeout then p.2 else err) p.1)
    (by
      intro i p hi hI
      rcases p with ⟨t, last⟩
      rcases hf : fn t with ⟨_ | e, t1⟩
      · have h := hok i t last hi hI (by rw [hf])
        rw [hf] at h
        simp [retryCondition, hf, h]
      · by_cases hcf : IsConflict e = true
        · have h := hconflict i t last e hi hI (by rw [hf]) hcf
          rw [hf] at h
          simp [retryCondition, hf, hcf, h]
        · have hcf2 : IsConflict e = false := by simpa using hcf
          have h := hother i t last e hi hI (by rw [hf]) hcf2
          rw [hf] at h
          simp only [retryCondition, hf, hcf2]
          constructor
          · intro _
            by_cases he : e = GoError.ErrWaitTimeout
            · subst he
              simpa using h
            · simpa [he] using h
          · intro hb
            simp at hb)
    (by
      intro p hI
      simpa using hend p.1 p.2 hI)
    backoff.Steps.toNat 0 (s, none) (by omega) h0
  unfold RetryOnConflict ExponentialBackoff
  rcases hr : backoffLoop (retryCondition fn) backoff.Steps.toNat (s, none) with ⟨err, s1, last⟩
  rw [hr] at key
  by_cases he : err = some GoError.ErrWaitTimeout
  · simpa [he] using key
  · simpa [he] using key

/-! ## One attempt -/

/-- The three ways an attempt can go: the store call succeeds; it fails and the lister finds
the record; it fails and the lister fails too. -/
theorem updateFn_cases {σ B S : Type} (c : Collaborators σ B S) (ns tcName : String)
    (status : S) (f : Frame σ B S) :
    (∃ x1 r, c.Update f.world.ext ns (f.written status) = (x1, r, none) ∧
      updateFn c ns tcName status f = (none,
        { world :=
            { ext := x1
              heap := Function.update f.world.heap f.tc (f.written status)
              next := f.world.next
              log := f.world.log ++
                [Effect.storeUpdate ns (f.written status) r none,
                 Effect.glogInfof
                  ("TidbCluster: [" ++ ns ++ "/" ++ tcName ++ "] updated successfully")] }
          tc := f.tc
          updateTC := r })) ∨
    (∃ x1 r e x2 u, c.Update f.world.ext ns (f.written status) = (x1, r, some e) ∧
      c.Get x1 ns tcName = (x2, Sum.inr u) ∧
      updateFn c ns tcName status f = (some e,
        { world :=
            { ext := x2
              heap := Function.update (Function.update f.world.heap f.tc (f.written status))
                f.world.next (Function.update f.world.heap f.tc (f.written status) u)
              next := f.world.next + 1
              log := f.world.log ++
                [Effect.storeUpdate ns (f.written status) r (some e),
                 Effect.glogErrorf ("failed to update TidbCluster: [" ++ ns ++ "/" ++ tcName
                  ++ "], error: " ++ e.Error),
                 Effect.listerGet ns tcName (Sum.inr u)] }
          tc := f.world.next
          updateTC := r })) ∨
    (∃ x1 r e x2 e2, c.Update f.world.ext ns (f.written status) = (x1, r, some e) ∧
      c.Get x1 ns tcName = (x2, Sum.inl e2) ∧
      updateFn c ns tcName status f = (some e,
        { world :=
            { ext := x2
              heap := Function.update f.world.heap f.tc (f.written status)
              next := f.world.next
              log := f.world.log ++
                [Effect.storeUpdate ns (f.written status) r (some e),
                 Effect.glogErrorf ("failed to update TidbCluster: [" ++ ns ++ "/" ++ tcName
                  ++ "], error: " ++ e.Error),
                 Effect.listerGet ns tcName (Sum.inl e2),
                 Effect.handleError ("error getting updated TidbCluster " ++ ns ++ "/" ++ tcName
                  ++ " from lister: " ++ e2.Error)] }
          tc := f.tc
          updateTC := r })) := by
  rcases hu : c.Update f.world.ext ns (f.written status) with ⟨x1, r, _ | e⟩
  · left
    refine ⟨x1, r, rfl, ?_⟩
    simp only [Frame.written] at hu
    simp [updateFn, World.emit, hu, Frame.written]
  · rcases hg : c.Get x1 ns tcName with ⟨x2, e2 | u⟩
    · right; right
      refine ⟨x1, r, e, x2, e2, rfl, hg, ?_⟩
      simp only [Frame.written] at hu
      simp [updateFn, World.emit, hu, hg, Frame.written]
    · right; left
      refine ⟨x1, r, e, x2, u, rfl, hg, ?_⟩
      simp only [Frame.written] at hu
      simp [updateFn, World.emit, hu, hg, Frame.written, DeepCopy]

/-! ## Lemmas on logs -/

theorem storeWrites_append {B S : Type} (l1 l2 : List (Effect B S)) :
    storeWrites (l1 ++ l2) = storeWrites l1 ++ storeWrites l2 := by
  induction l1 with
  | nil => rfl
  | cons e l ih => cases e <;> simp [storeWrites, ih]

theorem storeCalls_append {B S : Type} (l1 l2 : List (Effect B S)) :
    storeCalls (l1 ++ l2) = storeCalls l1 + storeCalls l2 := by
  induction l1 with
  | nil => simp [storeCalls]
  | cons e l ih => cases e <;> simp [storeCalls, ih]; omega

theorem storeAnswers_append {B S : Type} (l1 l2 : List (Effect B S)) :
    storeAnswers (l1 ++ l2) = storeAnswers l1 ++ storeAnswers l2 := by
  induction l1 with
  | nil => rfl
  | cons e l ih => cases e <;> simp [storeAnswers, ih]

theorem since_of_log_eq {σ B S : Type} (w1 w0 : World σ B S) (extra : List (Effect B S))
    (h : w1.log = w0.log ++ extra) : w1.since w0 = extra := by
  simp [World.since, h]

/-- The log after `UpdateTidbCluster` is the log the retry left followed by one more entry, the
event. -/
theorem UpdateTidbCluster_log {σ B S : Type} (uni : UnicodeTables)
    (c : Collaborators σ B S) (defaultRetry : Backoff)
    (w : World σ B S) (tc : Addr) :
    ∃ ev, ev.isEvent = true ∧ ev.isStoreUpdate = false ∧
      (UpdateTidbCluster uni c defaultRetry w tc).2.log =
        (retryUpdate c defaultRetry w tc).2.world.log ++ [ev] ∧
      (UpdateTidbCluster uni c defaultRetry w tc).2.heap =
        (retryUpdate c defaultRetry w tc).2.world.heap := by
  unfold UpdateTidbCluster
  rcases hr : retryUpdate c defaultRetry w tc with ⟨_ | e, f⟩
  · exact ⟨Effect.event f.tc EventTypeNormal _ _, rfl, rfl, rfl, rfl⟩
  · exact ⟨Effect.event f.tc EventTypeWarning _ _, rfl, rfl, rfl, rfl⟩

theorem storeCalls_eq_zero {B S : Type} (l : List (Effect B S))
    (h : ∀ e ∈ l, e.isEvent = false ∧ e.isStoreUpdate = false) : storeCalls l = 0 := by
  induction l with
  | nil => rfl
  | cons e l ih =>
    have he := (h e (List.mem_cons_self e l)).2
    have hl := ih (fun x hx => h x (List.mem_cons_of_mem e hx))
    cases e <;> simp_all [storeCalls, Effect.isStoreUpdate]

theorem storeAnswers_eq_nil {B S : Type} (l : List (Effect B S))
    (h : ∀ e ∈ l, e.isEvent = false ∧ e.isStoreUpdate = false) : storeAnswers l = [] := by
  induction l with
  | nil => rfl
  | cons e l ih =>
    have he := (h e (List.mem_cons_self e l)).2
    have hl := ih (fun x hx => h x (List.mem_cons_of_mem e hx))
    cases e <;> simp_all [storeAnswers, Effect.isStoreUpdate]

theorem storeCalls_eq_length {B S : Type} (l : List (Effect B S)) :
    storeCalls l = (storeAnswers l).length := by
  induction l with
  | nil => rfl
  | cons e l ih => cases e <;> simp [storeCalls, storeAnswers, ih]

/-- What every attempt does, however it goes: it returns the error of its one store call,
leaves the store's object in `updateTC`, and appends to the log that store call followed by
entries that are neither store calls nor events. -/
theorem updateFn_summary {σ B S : Type} (c : Collaborators σ B S) (ns tcName : String)
    (status : S) (f : Frame σ B S) :
    ∃ rest,
      (updateFn c ns tcName status f).1 = (c.Update f.world.ext ns (f.written status)).2.2 ∧
      (updateFn c ns tcName status f).2.updateTC
        = (c.Update f.world.ext ns (f.written status)).2.1 ∧
      (updateFn c ns tcName status f).2.world.log
        = f.world.log ++ Effect.storeUpdate ns (f.written status)
            (c.Update f.world.ext ns (f.written status)).2.1
            (c.Update f.world.ext ns (f.written status)).2.2 :: rest ∧
      (∀ e ∈ rest, e.isEvent = false ∧ e.isStoreUpdate = false) ∧
      ((updateFn c ns tcName status f).2.world.ext
          = (c.Update f.world.ext ns (f.written status)).1 ∨
        (updateFn c ns tcName status f).2.world.ext
          = (c.Get (c.Update f.world.ext ns (f.written status)).1 ns tcName).1) := by
  rcases updateFn_cases c ns tcName status f with
    ⟨x1, r, hu, h⟩ | ⟨x1, r, e, x2, u, hu, hg, h⟩ | ⟨x1, r, e, x2, e2, hu, hg, h⟩
  · rw [h, hu]
    exact ⟨_, rfl, rfl, rfl, by simp [Effect.isEvent, Effect.isStoreUpdate], Or.inl rfl⟩
  · rw [h, hu]
    refine ⟨_, rfl, rfl, rfl, by simp [Effect.isEvent, Effect.isStoreUpdate], Or.inr ?_⟩
    simp [hg]
  · rw [h, hu]
    refine ⟨_, rfl, rfl, rfl, by simp [Effect.isEvent, Effect.isStoreUpdate], Or.inr ?_⟩
    simp [hg]

/-- An attempt extends what the call has logged so far by one store call: one more write, one
more answer, and no event. -/
theorem updateFn_extends {σ B S : Type} (c : Collaborators σ B S) (ns tcName : String)
    (status : S) (f : Frame σ B S) (log0 extra : List (Effect B S))
    (hlog : f.world.log = log0 ++ extra) :
    ∃ extra1, (updateFn c ns tcName status f).2.world.log = log0 ++ extra1 ∧
      storeCalls extra1 = storeCalls extra + 1 ∧
      storeAnswers extra1 = storeAnswers extra ++
        [((c.Update f.world.ext ns (f.written status)).2.1,
          (c.Update f.world.ext ns (f.written status)).2.2)] ∧
      storeWrites extra1 = storeWrites extra ++ [f.written status] ∧
      ((∀ e ∈ extra, e.isEvent = false) → ∀ e ∈ extra1, e.isEvent = false) := by
  obtain ⟨rest, -, -, h3, h4, -⟩ := updateFn_summary c ns tcName status f
  refine ⟨extra ++ Effect.storeUpdate ns (f.written status)
    (c.Update f.world.ext ns (f.written status)).2.1
    (c.Update f.world.ext ns (f.written status)).2.2 :: rest, ?_, ?_, ?_, ?_, ?_⟩
  · rw [h3, hlog, List.append_assoc]
  · rw [storeCalls_append]
    simp [storeCalls, storeCalls_eq_zero rest h4]
  · rw [storeAnswers_append]
    simp [storeAnswers, storeAnswers_eq_nil rest h4]
  · rw [storeWrites_append]
    have hw : storeWrites rest = [] := by
      clear h3
      induction rest with
      | nil => rfl
      | cons e l ih =>
        have he := (h4 e (List.mem_cons_self e l)).2
        have hl := ih (fun x hx => h4 x (List.mem_cons_of_mem e hx))
        cases e <;> simp_all [storeWrites, Effect.isStoreUpdate]
    simp [storeWrites, hw]
  · intro hno e he
    rcases List.mem_append.1 he with he | he
    · exact hno e he
    · rcases List.mem_cons.1 he with he | he
      · subst he
        rfl
      · exact (h4 e he).1

/-- The results of `UpdateTidbCluster` are the final `updateTC` and the error of the retry. -/
theorem UpdateTidbCluster_fst {σ B S : Type} (uni : UnicodeTables)
    (c : Collaborators σ B S) (defaultRetry : Backoff)
    (w : World σ B S) (tc : Addr) :
    (UpdateTidbCluster uni c defaultRetry w tc).1
      = ((retryUpdate c defaultRetry w tc).2.updateTC, (retryUpdate c defaultRetry w tc).1) := by
  unfold UpdateTidbCluster
  rcases retryUpdate c defaultRetry w tc with ⟨err, f⟩
  rfl

/-- What `UpdateTidbCluster` adds to the log is what its retry added, followed by the event;
the event is no store call. -/
theorem UpdateTidbCluster_since {σ B S : Type} (uni : UnicodeTables)
    (c : Collaborators σ B S)
    (defaultRetry : Backoff) (w : World σ B S) (tc : Addr) (extra : List (Effect B S))
    (h : (retryUpdate c defaultRetry w tc).2.world.log = w.log ++ extra) :
    ∃ ev, ev.isEvent = true ∧
      (UpdateTidbCluster uni c defaultRetry w tc).2.since w = extra ++ [ev] ∧
      storeCalls ((UpdateTidbCluster uni c defaultRetry w tc).2.since w) = storeCalls extra ∧
      storeAnswers ((UpdateTidbCluster uni c defaultRetry w tc).2.since w) = storeAnswers extra ∧
      storeWrites ((UpdateTidbCluster uni c defaultRetry w tc).2.since w) = storeWrites extra := by
  obtain ⟨ev, hev, hns, hl, -⟩ := UpdateTidbCluster_log uni c defaultRetry w tc
  have hsince := since_of_log_eq (UpdateTidbCluster uni c defaultRetry w tc).2 w (extra ++ [ev])
    (by rw [hl, h, List.append_assoc])
  refine ⟨ev, hev, hsince, ?_, ?_, ?_⟩
  · rw [hsince, storeCalls_append]
    cases ev <;> simp_all [storeCalls, Effect.isStoreUpdate]
  · rw [hsince, storeAnswers_append]
    cases ev <;> simp_all [storeAnswers, Effect.isStoreUpdate]
  · rw [hsince, storeWrites_append]
    cases ev <;> simp_all [storeWrites, Effect.isStoreUpdate]

/-- The error an attempt returns is the error of its store call. -/
theorem updateFn_fst {σ B S : Type} (c : Collaborators σ B S) (ns tcName : String)
    (status : S) (f : Frame σ B S) :
    (updateFn c ns tcName status f).1 = (c.Update f.world.ext ns (f.written status)).2.2 := by
  obtain ⟨rest, h1, -⟩ := updateFn_summary c ns tcName status f
  exact h1

/-- The object an attempt leaves in `updateTC` is the one its store call answered. -/
theorem updateFn_updateTC {σ B S : Type} (c : Collaborators σ B S) (ns tcName : String)
    (status : S) (f : Frame σ B S) :
    (updateFn c ns tcName status f).2.updateTC
      = (c.Update f.world.ext ns (f.written status)).2.1 := by
  obtain ⟨rest, -, h2, -⟩ := updateFn_summary c ns tcName status f
  exact h2

/-! ## The caller's status reaches every write -/

/-- Every record the retry hands to the store carries the saved status. -/
theorem retryUpdate_writes {σ B S : Type} (c : Collaborators σ B S) (defaultRetry : Backoff)
    (w : World σ B S) (tc : Addr) :
    ∃ extra, (retryUpdate c defaultRetry w tc).2.world.log = w.log ++ extra ∧
      ∀ r ∈ storeWrites extra, r.Status = (w.heap tc).Status := by
  unfold retryUpdate
  have hstep : ∀ f : Frame σ B S,
      (∃ extra, f.world.log = w.log ++ extra ∧
        ∀ r ∈ storeWrites extra, r.Status = (w.heap tc).Status) →
      ∃ extra, (updateFn c (w.heap tc).Namespace (w.heap tc).Name (w.heap tc).Status
          f).2.world.log = w.log ++ extra ∧
        ∀ r ∈ storeWrites extra, r.Status = (w.heap tc).Status := by
    rintro f ⟨extra, hlog, hall⟩
    rcases updateFn_cases c (w.heap tc).Namespace (w.heap tc).Name (w.heap tc).Status f with
      ⟨x1, r, -, h⟩ | ⟨x1, r, e, x2, u, -, -, h⟩ | ⟨x1, r, e, x2, e2, -, -, h⟩ <;>
    · rw [h]
      refine ⟨extra ++ _, by rw [hlog, List.append_assoc], ?_⟩
      intro r hr
      simp only [storeWrites_append, storeWrites, List.mem_append, List.mem_singleton] at hr
      rcases hr with hr | hr
      · exact hall r hr
      · subst hr
        rfl
  exact RetryOnConflict_rule defaultRetry _
    (fun _ f _ => ∃ extra, f.world.log = w.log ++ extra ∧
      ∀ r ∈ storeWrites extra, r.Status = (w.heap tc).Status)
    (fun _ f => ∃ extra, f.world.log = w.log ++ extra ∧
      ∀ r ∈ storeWrites extra, r.Status = (w.heap tc).Status)
    (fun _ f _ _ hI _ => hstep f hI)
    (fun _ f _ _ _ hI _ _ => hstep f hI)
    (fun _ f _ _ _ hI _ _ => hstep f hI)
    (fun _ _ hI => hI)
    { world := w, tc := tc, updateTC := none } ⟨[], by simp, by simp [storeWrites]⟩

/-- Claim C1: every record that `UpdateTidbCluster` hands to the store carries the status the
caller's record had on entry; and when an attempt fails and the lister answers the pointer `u`
to a snapshot, the following attempt hands the store that snapshot with only its status
replaced by the saved one. -/
theorem UpdateTidbCluster_writes_caller_status {σ B S : Type} (uni : UnicodeTables)
    (c : Collaborators σ B S)
    (defaultRetry : Backoff) (w : World σ B S) (tc : Addr) :
    (∀ r ∈ storeWrites ((UpdateTidbCluster uni c defaultRetry w tc).2.since w),
      r.Status = (w.heap tc).Status) ∧
    (∀ (f : Frame σ B S) (x1 x2 : σ) (r : Option (TidbCluster B S)) (e : GoError) (u : Addr),
      c.Update f.world.ext (w.heap tc).Namespace (f.written (w.heap tc).Status)
        = (x1, r, some e) →
      c.Get x1 (w.heap tc).Namespace (w.heap tc).Name = (x2, Sum.inr u) →
      storeWrites (World.since
        (updateFn c (w.heap tc).Namespace (w.heap tc).Name (w.heap tc).Status
          (updateFn c (w.heap tc).Namespace (w.heap tc).Name (w.heap tc).Status f).2).2.world
        (updateFn c (w.heap tc).Namespace (w.heap tc).Name (w.heap tc).Status f).2.world)
      = [{ Function.update f.world.heap f.tc (f.written (w.heap tc).Status) u with
            Status := (w.heap tc).Status }]) := by
  constructor
  · obtain ⟨extra, hlog, hall⟩ := retryUpdate_writes c defaultRetry w tc
    obtain ⟨ev, hev, hns, hl, -⟩ := UpdateTidbCluster_log uni c defaultRetry w tc
    rw [since_of_log_eq _ w (extra ++ [ev]) (by rw [hl, hlog, List.append_assoc])]
    intro r hr
    rw [storeWrites_append] at hr
    cases ev <;> simp [Effect.isEvent] at hev
    simp only [storeWrites, List.append_nil] at hr
    exact hall r hr
  · intro f x1 x2 r e u hU hG
    rcases updateFn_cases c (w.heap tc).Namespace (w.heap tc).Name (w.heap tc).Status f with
      ⟨y1, r1, h1, -⟩ | ⟨y1, r1, e1, y2, u1, h1, h2, h⟩ | ⟨y1, r1, e1, y2, e2, h1, h2, -⟩
    · rw [hU] at h1
      simp at h1
    · rw [hU] at h1
      obtain ⟨rfl, rfl, rfl⟩ : x1 = y1 ∧ r = r1 ∧ e = e1 := by simpa using h1
      rw [hG] at h2
      obtain ⟨rfl, rfl⟩ : x2 = y2 ∧ u = u1 := by simpa using h2
      rw [h]
      rcases updateFn_cases c (w.heap tc).Namespace (w.heap tc).Name (w.heap tc).Status
          { world :=
              { ext := x2
                heap := Function.update
                  (Function.update f.world.heap f.tc (f.written (w.heap tc).Status))
                  f.world.next
                  (Function.update f.world.heap f.tc (f.written (w.heap tc).Status) u)
                next := f.world.next + 1
                log := f.world.log ++
                  [Effect.storeUpdate (w.heap tc).Namespace (f.written (w.heap tc).Status) r
                    (some e),
                   Effect.glogErrorf ("failed to update TidbCluster: [" ++ (w.heap tc).Namespace
                    ++ "/" ++ (w.heap tc).Name ++ "], error: " ++ e.Error),
                   Effect.listerGet (w.heap tc).Namespace (w.heap tc).Name (Sum.inr u)] }
            tc := f.world.next
            updateTC := r } with
        ⟨z1, r2, -, h3⟩ | ⟨z1, r2, e3, z2, u2, -, -, h3⟩ | ⟨z1, r2, e3, z2, e4, -, -, h3⟩ <;>
      · rw [h3]
        simp [World.since, storeWrites, Frame.written]
    · rw [hU] at h1
      obtain ⟨rfl, rfl, rfl⟩ : x1 = y1 ∧ r = r1 ∧ e = e1 := by simpa using h1
      rw [hG] at h2
      simp at h2

/-! ## Counting attempts -/

/-- Claim C2: when every store call fails with a conflict error and the retry policy has at
least one step, `UpdateTidbCluster` makes exactly `Steps` store calls and returns the error of
the last of them, which is not nil. -/
theorem UpdateTidbCluster_always_conflict {σ B S : Type} (uni : UnicodeTables)
    (c : Collaborators σ B S)
    (defaultRetry : Backoff) (w : World σ B S) (tc : Addr)
    (hsteps : 1 ≤ defaultRetry.Steps)
    (hall : ∀ x ns r, ∃ e, (c.Update x ns r).2.2 = some e ∧ IsConflict e = true) :
    storeCalls ((UpdateTidbCluster uni c defaultRetry w tc).2.since w) = defaultRetry.Steps.toNat ∧
    ∃ r e, (storeAnswers ((UpdateTidbCluster uni c defaultRetry w tc).2.since w)).getLast?
        = some (r, some e) ∧
      (UpdateTidbCluster uni c defaultRetry w tc).1.2 = some e := by
  have key : ∃ extra, (retryUpdate c defaultRetry w tc).2.world.log = w.log ++ extra ∧
      storeCalls extra = defaultRetry.Steps.toNat ∧
      ∃ r e, (storeAnswers extra).getLast? = some (r, some e) ∧
        (retryUpdate c defaultRetry w tc).1 = some e := by
    unfold retryUpdate
    refine RetryOnConflict_rule defaultRetry
      (updateFn c (w.heap tc).Namespace (w.heap tc).Name (w.heap tc).Status)
      (fun i f last => ∃ extra, f.world.log = w.log ++ extra ∧ storeCalls extra = i ∧
        (i = 0 ∨ ∃ r e, (storeAnswers extra).getLast? = some (r, some e) ∧ last = some e))
      (fun err f => ∃ extra, f.world.log = w.log ++ extra ∧
        storeCalls extra = defaultRetry.Steps.toNat ∧
        ∃ r e, (storeAnswers extra).getLast? = some (r, some e) ∧ err = some e)
      ?_ ?_ ?_ ?_ { world := w, tc := tc, updateTC := none } ⟨[], by simp, rfl, Or.inl rfl⟩
    · intro i f last _ _ hnone
      obtain ⟨rest, h1, -⟩ := updateFn_summary c (w.heap tc).Namespace (w.heap tc).Name
        (w.heap tc).Status f
      obtain ⟨e, he, -⟩ := hall f.world.ext (w.heap tc).Namespace (f.written (w.heap tc).Status)
      rw [h1, he] at hnone
      simp at hnone
    · rintro i f last e _ ⟨extra, hlog, hcount, -⟩ hsome _
      obtain ⟨rest, h1, -, h3, h4, -⟩ := updateFn_summary c (w.heap tc).Namespace
        (w.heap tc).Name (w.heap tc).Status f
      rw [h1] at hsome
      refine ⟨extra ++ Effect.storeUpdate (w.heap tc).Namespace (f.written (w.heap tc).Status)
          (c.Update f.world.ext (w.heap tc).Namespace (f.written (w.heap tc).Status)).2.1
          (c.Update f.world.ext (w.heap tc).Namespace (f.written (w.heap tc).Status)).2.2
          :: rest, ?_, ?_,
        Or.inr ⟨(c.Update f.world.ext (w.heap tc).Namespace
          (f.written (w.heap tc).Status)).2.1, e, ?_, rfl⟩⟩
      · rw [h3, hlog, List.append_assoc]
      · rw [storeCalls_append]
        simp [storeCalls, storeCalls_eq_zero rest h4, hcount]
      · rw [storeAnswers_append]
        simp [storeAnswers, storeAnswers_eq_nil rest h4, hsome]
    · intro i f last e _ _ hsome hnc
      obtain ⟨rest, h1, -⟩ := updateFn_summary c (w.heap tc).Namespace (w.heap tc).Name
        (w.heap tc).Status f
      obtain ⟨e1, he, hc⟩ := hall f.world.ext (w.heap tc).Namespace
        (f.written (w.heap tc).Status)
      rw [h1, he] at hsome
      obtain rfl : e1 = e := by simpa using hsome
      rw [hc] at hnc
      simp at hnc
    · rintro f last ⟨extra, hlog, hcount, h0 | h⟩
      · omega
      · exact ⟨extra, hlog, hcount, h⟩
  obtain ⟨extra, hlog, hcount, r, e, hlast, herr⟩ := key
  obtain ⟨ev, hev, hns, hl, -⟩ := UpdateTidbCluster_log uni c defaultRetry w tc
  have hsince := since_of_log_eq (UpdateTidbCluster uni c defaultRetry w tc).2 w (extra ++ [ev])
    (by rw [hl, hlog, List.append_assoc])
  have hev2 : ∀ x ∈ [ev], x.isEvent = false ∧ x.isStoreUpdate = false → False := by
    intro x hx h
    simp only [List.mem_singleton] at hx
    subst hx
    rw [hev] at h
    simp at h
  have hevc : storeCalls [ev] = 0 := by
    cases ev <;> simp_all [storeCalls, Effect.isStoreUpdate]
  have heva : storeAnswers [ev] = [] := by
    cases ev <;> simp_all [storeAnswers, Effect.isStoreUpdate]
  rw [hsince, storeCalls_append, storeAnswers_append, hevc, heva, List.append_nil]
  refine ⟨by omega, r, e, hlast, ?_⟩
  unfold UpdateTidbCluster
  rcases hr : retryUpdate c defaultRetry w tc with ⟨err, f⟩
  rw [hr] at herr
  exact herr

/-- Claim C3, as amended: the retry loop tells conflicts from other errors.  When every store
call fails with an error that is not a conflict (and the policy has at least one step), the
store is called exactly once.  For any collaborators, the calls never exceed `Steps`, every
store call but the last failed with a conflict error, and when the last one failed with a
conflict error too the budget of `Steps` calls is used up. -/
theorem UpdateTidbCluster_stops_on_other_error {σ B S : Type} (uni : UnicodeTables)
    (c : Collaborators σ B S)
    (defaultRetry : Backoff) (w : World σ B S) (tc : Addr)
    (hsteps : 1 ≤ defaultRetry.Steps)
    (hall : ∀ x ns r, ∃ e, (c.Update x ns r).2.2 = some e ∧ IsConflict e = false) :
    storeCalls ((UpdateTidbCluster uni c defaultRetry w tc).2.since w) = 1 ∧
    (∀ (c1 : Collaborators σ B S) (w1 : World σ B S) (tc1 : Addr),
      storeCalls ((UpdateTidbCluster uni c1 defaultRetry w1 tc1).2.since w1)
        ≤ defaultRetry.Steps.toNat ∧
      (∀ a ∈ (storeAnswers ((UpdateTidbCluster uni c1 defaultRetry w1 tc1).2.since w1)).dropLast,
        ∃ e, a.2 = some e ∧ IsConflict e = true) ∧
      (∀ r e, (storeAnswers ((UpdateTidbCluster uni c1 defaultRetry w1 tc1).2.since w1)).getLast?
          = some (r, some e) → IsConflict e = true →
        storeCalls ((UpdateTidbCluster uni c1 defaultRetry w1 tc1).2.since w1)
          = defaultRetry.Steps.toNat)) := by
  constructor
  · have key : ∃ extra, (retryUpdate c defaultRetry w tc).2.world.log = w.log ++ extra ∧
        storeCalls extra = 1 := by
      unfold retryUpdate
      refine RetryOnConflict_rule defaultRetry
        (updateFn c (w.heap tc).Namespace (w.heap tc).Name (w.heap tc).Status)
        (fun i f _ => i = 0 ∧ f.world.log = w.log)
        (fun _ f => ∃ extra, f.world.log = w.log ++ extra ∧ storeCalls extra = 1)
        ?_ ?_ ?_ ?_ { world := w, tc := tc, updateTC := none } ⟨rfl, rfl⟩
      · intro i f last _ _ hnone
        obtain ⟨e, he, -⟩ := hall f.world.ext (w.heap tc).Namespace
          (f.written (w.heap tc).Status)
        rw [updateFn_fst, he] at hnone
        simp at hnone
      · intro i f last e _ _ hsome hcf
        obtain ⟨e1, he, hc⟩ := hall f.world.ext (w.heap tc).Namespace
          (f.written (w.heap tc).Status)
        rw [updateFn_fst, he] at hsome
        obtain rfl : e1 = e := by simpa using hsome
        rw [hc] at hcf
        simp at hcf
      · rintro i f last e _ ⟨-, hlog⟩ _ _
        obtain ⟨extra1, h1, h2, -⟩ := updateFn_extends c (w.heap tc).Namespace (w.heap tc).Name
          (w.heap tc).Status f w.log [] (by simpa using hlog)
        exact ⟨extra1, h1, by simpa [storeCalls] using h2⟩
      · rintro f last ⟨h0, -⟩
        omega
    obtain ⟨extra, hlog, hcount⟩ := key
    obtain ⟨ev, -, -, hc, -⟩ := UpdateTidbCluster_since uni c defaultRetry w tc extra hlog
    rw [hc, hcount]
  · intro c1 w1 tc1
    have key : ∃ extra, (retryUpdate c1 defaultRetry w1 tc1).2.world.log = w1.log ++ extra ∧
        storeCalls extra ≤ defaultRetry.Steps.toNat ∧
        (∀ a ∈ (storeAnswers extra).dropLast, ∃ e, a.2 = some e ∧ IsConflict e = true) ∧
        (∀ r e, (storeAnswers extra).getLast? = some (r, some e) → IsConflict e = true →
          storeCalls extra = defaultRetry.Steps.toNat) := by
      unfold retryUpdate
      refine RetryOnConflict_rule defaultRetry
        (updateFn c1 (w1.heap tc1).Namespace (w1.heap tc1).Name (w1.heap tc1).Status)
        (fun i f _ => ∃ extra, f.world.log = w1.log ++ extra ∧ storeCalls extra = i ∧
          ∀ a ∈ storeAnswers extra, ∃ e, a.2 = some e ∧ IsConflict e = true)
        (fun _ f => ∃ extra, f.world.log = w1.log ++ extra ∧
          storeCalls extra ≤ defaultRetry.Steps.toNat ∧
          (∀ a ∈ (storeAnswers extra).dropLast, ∃ e, a.2 = some e ∧ IsConflict e = true) ∧
          (∀ r e, (storeAnswers extra).getLast? = some (r, some e) → IsConflict e = true →
            storeCalls extra = defaultRetry.Steps.toNat))
        ?_ ?_ ?_ ?_ { world := w1, tc := tc1, updateTC := none }
        ⟨[], by simp, rfl, by simp [storeAnswers]⟩
      · rintro i f last hi ⟨extra, hlog, hcount, hans⟩ hnone
        obtain ⟨extra1, h1, h2, h3, -⟩ := updateFn_extends c1 (w1.heap tc1).Namespace
          (w1.heap tc1).Name (w1.heap tc1).Status f w1.log extra hlog
        rw [updateFn_fst] at hnone
        refine ⟨extra1, h1, by omega, ?_, ?_⟩
        · rw [h3, List.dropLast_concat]
          exact hans
        · intro r e hlast _
          rw [h3, List.getLast?_concat, hnone] at hlast
          simp at hlast
      · rintro i f last e hi ⟨extra, hlog, hcount, hans⟩ hsome hcf
        obtain ⟨extra1, h1, h2, h3, -⟩ := updateFn_extends c1 (w1.heap tc1).Namespace
          (w1.heap tc1).Name (w1.heap tc1).Status f w1.log extra hlog
        rw [updateFn_fst] at hsome
        refine ⟨extra1, h1, by omega, ?_⟩
        intro a ha
        rw [h3, List.mem_append, List.mem_singleton] at ha
        rcases ha with ha | ha
        · exact hans a ha
        · exact ⟨e, by rw [ha]; exact hsome, hcf⟩
      · rintro i f last e hi ⟨extra, hlog, hcount, hans⟩ hsome hcf
        obtain ⟨extra1, h1, h2, h3, -⟩ := updateFn_extends c1 (w1.heap tc1).Namespace
          (w1.heap tc1).Name (w1.heap tc1).Status f w1.log extra hlog
        rw [updateFn_fst] at hsome
        refine ⟨extra1, h1, by omega, ?_, ?_⟩
        · rw [h3, List.dropLast_concat]
          exact hans
        · intro r e1 hlast hc1
          rw [h3, List.getLast?_concat, hsome] at hlast
          obtain ⟨-, rfl⟩ : _ = r ∧ e = e1 := by simpa using hlast
          rw [hcf] at hc1
          simp at hc1
      · rintro f last ⟨extra, hlog, hcount, hans⟩
        refine ⟨extra, hlog, by omega, ?_, fun _ _ _ _ => hcount⟩
        intro a ha
        exact hans a (List.mem_of_mem_dropLast ha)
    obtain ⟨extra, hlog, h1, h2, h3⟩ := key
    obtain ⟨ev, -, -, hc, ha, -⟩ := UpdateTidbCluster_since uni c1 defaultRetry w1 tc1 extra hlog
    rw [hc, ha]
    exact ⟨h1, h2, h3⟩

/-- Claim C4, as amended: when the first `k` store calls fail with conflict errors and call
`k + 1` succeeds, for `k` below the number of steps, `UpdateTidbCluster` makes exactly `k + 1`
store calls and returns a nil error.  The function `calls` reads off the state of the
collaborators how many store calls were made. -/
theorem UpdateTidbCluster_succeeds_after_conflicts {σ B S : Type} (uni : UnicodeTables)
    (c : Collaborators σ B S)
    (defaultRetry : Backoff) (w : World σ B S) (tc : Addr) (calls : σ → Nat) (k : Nat)
    (hk : (k : Int) < defaultRetry.Steps)
    (h0 : calls w.ext = 0)
    (hU : ∀ x ns r, calls (c.Update x ns r).1 = calls x + 1)
    (hG : ∀ x ns nm, calls (c.Get x ns nm).1 = calls x)
    (hfail : ∀ x ns r, calls x < k → ∃ e, (c.Update x ns r).2.2 = some e ∧ IsConflict e = true)
    (hsucc : ∀ x ns r, calls x = k → (c.Update x ns r).2.2 = none) :
    storeCalls ((UpdateTidbCluster uni c defaultRetry w tc).2.since w) = k + 1 ∧
    (UpdateTidbCluster uni c defaultRetry w tc).1.2 = none := by
  have key : (retryUpdate c defaultRetry w tc).1 = none ∧
      ∃ extra, (retryUpdate c defaultRetry w tc).2.world.log = w.log ++ extra ∧
        storeCalls extra = k + 1 := by
    unfold retryUpdate
    refine RetryOnConflict_rule defaultRetry
      (updateFn c (w.heap tc).Namespace (w.heap tc).Name (w.heap tc).Status)
      (fun i f _ => i ≤ k ∧ calls f.world.ext = i ∧
        ∃ extra, f.world.log = w.log ++ extra ∧ storeCalls extra = i)
      (fun err f => err = none ∧
        ∃ extra, f.world.log = w.log ++ extra ∧ storeCalls extra = k + 1)
      ?_ ?_ ?_ ?_ { world := w, tc := tc, updateTC := none }
      ⟨Nat.zero_le k, h0, [], by simp, rfl⟩
    · rintro i f last hi ⟨hik, hcalls, extra, hlog, hcount⟩ hnone
      obtain ⟨extra1, h1, h2, -⟩ := updateFn_extends c (w.heap tc).Namespace (w.heap tc).Name
        (w.heap tc).Status f w.log extra hlog
      rw [updateFn_fst] at hnone
      have hik2 : i = k := by
        by_contra hne
        obtain ⟨e, he, -⟩ := hfail f.world.ext (w.heap tc).Namespace
          (f.written (w.heap tc).Status) (by omega)
        rw [he] at hnone
        simp at hnone
      exact ⟨rfl, extra1, h1, by omega⟩
    · rintro i f last e hi ⟨hik, hcalls, extra, hlog, hcount⟩ hsome hcf
      obtain ⟨extra1, h1, h2, -⟩ := updateFn_extends c (w.heap tc).Namespace (w.heap tc).Name
        (w.heap tc).Status f w.log extra hlog
      obtain ⟨rest, -, -, -, -, hext⟩ := updateFn_summary c (w.heap tc).Namespace
        (w.heap tc).Name (w.heap tc).Status f
      rw [updateFn_fst] at hsome
      have hik2 : i < k := by
        by_contra hne
        have := hsucc f.world.ext (w.heap tc).Namespace (f.written (w.heap tc).Status)
          (by omega)
        rw [this] at hsome
        simp at hsome
      refine ⟨by omega, ?_, extra1, h1, by omega⟩
      rcases hext with hext | hext
      · rw [hext, hU, hcalls]
      · rw [hext, hG, hU, hcalls]
    · rintro i f last e hi ⟨hik, hcalls, extra, hlog, hcount⟩ hsome hcf
      rw [updateFn_fst] at hsome
      exfalso
      by_cases hik2 : i < k
      · obtain ⟨e1, he, hc⟩ := hfail f.world.ext (w.heap tc).Namespace
          (f.written (w.heap tc).Status) (by omega)
        rw [he] at hsome
        obtain rfl : e1 = e := by simpa using hsome
        rw [hc] at hcf
        simp at hcf
      · have := hsucc f.world.ext (w.heap tc).Namespace (f.written (w.heap tc).Status)
          (by omega)
        rw [this] at hsome
        simp at hsome
    · rintro f last ⟨hik, -⟩
      omega
  obtain ⟨herr, extra, hlog, hcount⟩ := key
  obtain ⟨ev, -, -, hc, -⟩ := UpdateTidbCluster_since uni c defaultRetry w tc extra hlog
  rw [hc, hcount, UpdateTidbCluster_fst]
  exact ⟨rfl, herr⟩

/-! ## What is returned -/

/-- Claim C5, as amended: `UpdateTidbCluster` returns the object its last store call answered.
When that call succeeded the error returned is nil.  When it failed with a conflict, as on
exhaustion of the retry budget, or with any other error than the sentinel
`wait.ErrWaitTimeout`, that error is returned, which is not nil.  Without any store call both
results are nil. -/
theorem UpdateTidbCluster_returns_last_answer {σ B S : Type} (uni : UnicodeTables)
    (c : Collaborators σ B S)
    (defaultRetry : Backoff) (w : World σ B S) (tc : Addr) :
    (storeAnswers ((UpdateTidbCluster uni c defaultRetry w tc).2.since w) = [] →
      (UpdateTidbCluster uni c defaultRetry w tc).1 = (none, none)) ∧
    (∀ r e, (storeAnswers ((UpdateTidbCluster uni c defaultRetry w tc).2.since w)).getLast?
        = some (r, e) →
      (UpdateTidbCluster uni c defaultRetry w tc).1.1 = r ∧
      (e = none → (UpdateTidbCluster uni c defaultRetry w tc).1.2 = none) ∧
      (∀ x, e = some x → x ≠ GoError.ErrWaitTimeout →
        (UpdateTidbCluster uni c defaultRetry w tc).1.2 = some x) ∧
      (∀ x, e = some x → IsConflict x = true →
        (UpdateTidbCluster uni c defaultRetry w tc).1.2 = some x)) := by
  have key : ∃ extra, (retryUpdate c defaultRetry w tc).2.world.log = w.log ++ extra ∧
      (storeAnswers extra = [] → (retryUpdate c defaultRetry w tc).2.updateTC = none ∧
        (retryUpdate c defaultRetry w tc).1 = none) ∧
      (∀ r e, (storeAnswers extra).getLast? = some (r, e) →
        (retryUpdate c defaultRetry w tc).2.updateTC = r ∧
        (e = none → (retryUpdate c defaultRetry w tc).1 = none) ∧
        (∀ x, e = some x → x ≠ GoError.ErrWaitTimeout →
          (retryUpdate c defaultRetry w tc).1 = some x)) := by
    unfold retryUpdate
    refine RetryOnConflict_rule defaultRetry
      (updateFn c (w.heap tc).Namespace (w.heap tc).Name (w.heap tc).Status)
      (fun _ f last => ∃ extra, f.world.log = w.log ++ extra ∧
        ((storeAnswers extra = [] ∧ f.updateTC = none ∧ last = none) ∨
          ∃ x, (storeAnswers extra).getLast? = some (f.updateTC, some x) ∧ last = some x))
      (fun err f => ∃ extra, f.world.log = w.log ++ extra ∧
        (storeAnswers extra = [] → f.updateTC = none ∧ err = none) ∧
        (∀ r e, (storeAnswers extra).getLast? = some (r, e) →
          f.updateTC = r ∧ (e = none → err = none) ∧
          (∀ x, e = some x → x ≠ GoError.ErrWaitTimeout → err = some x)))
      ?_ ?_ ?_ ?_ { world := w, tc := tc, updateTC := none }
      ⟨[], by simp, Or.inl ⟨rfl, rfl, rfl⟩⟩
    · rintro i f last hi ⟨extra, hlog, -⟩ hnone
      obtain ⟨extra1, h1, -, h3, -⟩ := updateFn_extends c (w.heap tc).Namespace (w.heap tc).Name
        (w.heap tc).Status f w.log extra hlog
      rw [updateFn_fst] at hnone
      refine ⟨extra1, h1, ?_, ?_⟩
      · intro hnil
        rw [h3] at hnil
        simp at hnil
      · intro r e hlast
        rw [h3, List.getLast?_concat, hnone] at hlast
        obtain ⟨rfl, rfl⟩ : _ = r ∧ none = e := by simpa using hlast
        exact ⟨updateFn_updateTC _ _ _ _ _, fun _ => rfl, fun x hx => by simp at hx⟩
    · rintro i f last e hi ⟨extra, hlog, -⟩ hsome hcf
      obtain ⟨extra1, h1, -, h3, -⟩ := updateFn_extends c (w.heap tc).Namespace (w.heap tc).Name
        (w.heap tc).Status f w.log extra hlog
      rw [updateFn_fst] at hsome
      refine ⟨extra1, h1, Or.inr ⟨e, ?_, rfl⟩⟩
      rw [h3, List.getLast?_concat, hsome, updateFn_updateTC]
    · rintro i f last e hi ⟨extra, hlog, -⟩ hsome hcf
      obtain ⟨extra1, h1, -, h3, -⟩ := updateFn_extends c (w.heap tc).Namespace (w.heap tc).Name
        (w.heap tc).Status f w.log extra hlog
      rw [updateFn_fst] at hsome
      refine ⟨extra1, h1, ?_, ?_⟩
      · intro hnil
        rw [h3] at hnil
        simp at hnil
      · intro r e1 hlast
        rw [h3, List.getLast?_concat, hsome] at hlast
        obtain ⟨rfl, rfl⟩ : _ = r ∧ some e = e1 := by simpa using hlast
        refine ⟨updateFn_updateTC _ _ _ _ _, fun h => by simp at h, ?_⟩
        intro x hx hne
        obtain rfl : e = x := by simpa using hx
        rw [if_neg hne]
    · rintro f last ⟨extra, hlog, ⟨hnil, hup, hlast⟩ | ⟨x, hx, hlast⟩⟩
      · refine ⟨extra, hlog, fun _ => ⟨hup, hlast⟩, ?_⟩
        intro r e h
        rw [hnil] at h
        simp at h
      · refine ⟨extra, hlog, ?_, ?_⟩
        · intro hnil
          rw [hnil] at hx
          simp at hx
        · intro r e h
          rw [hx] at h
          obtain ⟨rfl, rfl⟩ : f.updateTC = r ∧ some x = e := by simpa using h
          refine ⟨rfl, fun h => by simp at h, ?_⟩
          intro y hy _
          obtain rfl : x = y := by simpa using hy
          exact hlast
  obtain ⟨extra, hlog, h1, h2⟩ := key
  obtain ⟨ev, -, -, -, ha, -⟩ := UpdateTidbCluster_since uni c defaultRetry w tc extra hlog
  rw [ha, UpdateTidbCluster_fst]
  constructor
  · intro hnil
    obtain ⟨ha1, ha2⟩ := h1 hnil
    rw [ha1, ha2]
  · intro r e hlast
    obtain ⟨ha, hb, hc⟩ := h2 r e hlast
    refine ⟨ha, hb, hc, ?_⟩
    intro x hx hconf
    refine hc x hx ?_
    rintro rfl
    simp [IsConflict] at hconf

/-! ## The event -/

/-- The retry itself records no event. -/
theorem retryUpdate_no_event {σ B S : Type} (c : Collaborators σ B S) (defaultRetry : Backoff)
    (w : World σ B S) (tc : Addr) :
    ∃ extra, (retryUpdate c defaultRetry w tc).2.world.log = w.log ++ extra ∧
      ∀ e ∈ extra, e.isEvent = false := by
  unfold retryUpdate
  have hstep : ∀ f : Frame σ B S,
      (∃ extra, f.world.log = w.log ++ extra ∧ ∀ e ∈ extra, e.isEvent = false) →
      ∃ extra, (updateFn c (w.heap tc).Namespace (w.heap tc).Name (w.heap tc).Status
          f).2.world.log = w.log ++ extra ∧ ∀ e ∈ extra, e.isEvent = false := by
    rintro f ⟨extra, hlog, hno⟩
    obtain ⟨extra1, h1, -, -, -, h5⟩ := updateFn_extends c (w.heap tc).Namespace
      (w.heap tc).Name (w.heap tc).Status f w.log extra hlog
    exact ⟨extra1, h1, h5 hno⟩
  exact RetryOnConflict_rule defaultRetry _
    (fun _ f _ => ∃ extra, f.world.log = w.log ++ extra ∧ ∀ e ∈ extra, e.isEvent = false)
    (fun _ f => ∃ extra, f.world.log = w.log ++ extra ∧ ∀ e ∈ extra, e.isEvent = false)
    (fun _ f _ _ hI _ => hstep f hI)
    (fun _ f _ _ _ hI _ _ => hstep f hI)
    (fun _ f _ _ _ hI _ _ => hstep f hI)
    (fun _ _ hI => hI)
    { world := w, tc := tc, updateTC := none } ⟨[], by simp, by simp⟩

/-- Claim C6: what a call of `UpdateTidbCluster` adds to the log is a sequence of entries
without any event, holding all its store calls, followed by exactly one event as the last
entry; the event has type Normal when the returned error is nil and type Warning when it is
not.  This holds for every retry policy and however the attempts go. -/
theorem UpdateTidbCluster_one_event {σ B S : Type} (uni : UnicodeTables)
    (c : Collaborators σ B S)
    (defaultRetry : Backoff) (w : World σ B S) (tc : Addr) :
    ∃ pre obj ty reason msg,
      (UpdateTidbCluster uni c defaultRetry w tc).2.since w
        = pre ++ [Effect.event obj ty reason msg] ∧
      (∀ e ∈ pre, e.isEvent = false) ∧
      storeCalls pre = storeCalls ((UpdateTidbCluster uni c defaultRetry w tc).2.since w) ∧
      List.countP Effect.isEvent ((UpdateTidbCluster uni c defaultRetry w tc).2.since w) = 1 ∧
      ((UpdateTidbCluster uni c defaultRetry w tc).1.2 = none → ty = EventTypeNormal) ∧
      ((UpdateTidbCluster uni c defaultRetry w tc).1.2 ≠ none → ty = EventTypeWarning) := by
  obtain ⟨extra, hlog, hno⟩ := retryUpdate_no_event c defaultRetry w tc
  have hcount : List.countP Effect.isEvent extra = 0 := by
    rw [List.countP_eq_zero]
    intro e he
    simp [hno e he]
  rw [UpdateTidbCluster_fst]
  rcases hr : retryUpdate c defaultRetry w tc with ⟨_ | e, f⟩
  · rw [hr] at hlog
    have hl : (UpdateTidbCluster uni c defaultRetry w tc).2.log = w.log ++ (extra ++
        [Effect.event f.tc EventTypeNormal ("Successful" ++ Title uni "update")
          (ToLower uni "update" ++ " TidbCluster " ++ (f.world.heap f.tc).Name ++ " successful")]) := by
      simp only [UpdateTidbCluster, hr, recordTidbClusterEvent, World.emit] at hlog ⊢
      rw [hlog, List.append_assoc]
    rw [since_of_log_eq _ w _ hl]
    refine ⟨extra, _, _, _, _, rfl, hno, ?_, ?_, fun _ => rfl, fun h => absurd rfl h⟩
    · rw [storeCalls_append]
      simp [storeCalls]
    · rw [List.countP_append, hcount]
      simp [Effect.isEvent]
  · rw [hr] at hlog
    have hl : (UpdateTidbCluster uni c defaultRetry w tc).2.log = w.log ++ (extra ++
        [Effect.event f.tc EventTypeWarning ("Failed" ++ Title uni "update")
          (ToLower uni "update" ++ " TidbCluster " ++ (f.world.heap f.tc).Name ++ " failed error: "
            ++ e.Error)]) := by
      simp only [UpdateTidbCluster, hr, recordTidbClusterEvent, World.emit] at hlog ⊢
      rw [hlog, List.append_assoc]
    rw [since_of_log_eq _ w _ hl]
    refine ⟨extra, _, _, _, _, rfl, hno, ?_, ?_, fun h => by simp at h, fun _ => rfl⟩
    · rw [storeCalls_append]
      simp [storeCalls]
    · rw [List.countP_append, hcount]
      simp [Effect.isEvent]

/-- Above `MaxASCII` the separators are the spaces that are neither letters nor digits. -/
theorem isSeparator_above_ascii (uni : UnicodeTables) (r : Char) (h : MaxASCII < r) :
    isSeparator uni r = (!(uni.IsLetter r || uni.IsDigit r) && uni.IsSpace r) := by
  have hn : ¬ r ≤ MaxASCII := not_le.2 h
  unfold isSeparator
  rw [if_neg hn]
  cases uni.IsLetter r <;> cases uni.IsDigit r <;> simp

/-- Claim C7: `recordTidbClusterEvent` records one event.  With a nil error it has type
Normal, reason `"Successful" + Title(verb)` and message
`lower(verb) + " TidbCluster " + name + " successful"`; with an error it has type Warning,
reason `"Failed" + Title(verb)` and message
`lower(verb) + " TidbCluster " + name + " failed error: " + error text`, for every verb, name
and error.  For the verb `"update"` the reasons are `SuccessfulUpdate` and `FailedUpdate`.
`Title` and `lower` are `strings.Title` and `strings.ToLower`: on ASCII they upper-case the
first letter of each word and lower-case every letter, and above ASCII they follow the tables
of package `unicode`. -/
theorem recordTidbClusterEvent_spec {σ B S : Type} (uni : UnicodeTables) (w : World σ B S)
    (verb : String) (tc : Addr) :
    (recordTidbClusterEvent uni w verb tc none).log
      = w.log ++ [Effect.event tc "Normal" ("Successful" ++ Title uni verb)
          (ToLower uni verb ++ " TidbCluster " ++ (w.heap tc).Name ++ " successful")] ∧
    (∀ e : GoError, (recordTidbClusterEvent uni w verb tc (some e)).log
      = w.log ++ [Effect.event tc "Warning" ("Failed" ++ Title uni verb)
          (ToLower uni verb ++ " TidbCluster " ++ (w.heap tc).Name ++ " failed error: "
            ++ e.Error)]) ∧
    "Successful" ++ Title uni "update" = "SuccessfulUpdate" ∧
    "Failed" ++ Title uni "update" = "FailedUpdate" ∧
    ToLower uni "update" = "update" ∧
    ToLower uni "UpDate TidbCluster_9Z" = "update tidbcluster_9z" ∧
    Title uni "scale out_x 9a-b" = "Scale Out_x 9a-B" ∧
    (∀ r : Char, MaxASCII < r → ToLower uni (String.mk [r, 'A']) = String.mk [uni.ToLower r, 'a']) ∧
    (∀ r : Char, MaxASCII < r → Title uni (String.mk ['a', r, 'b'])
      = String.mk ['A', r,
          if (!(uni.IsLetter r || uni.IsDigit r) && uni.IsSpace r) = true then 'B' else 'b']) ∧
    (∀ r : Char, MaxASCII < r → Title uni (String.mk [r]) = String.mk [uni.ToTitle r]) := by
  refine ⟨rfl, fun _ => rfl, rfl, rfl, rfl, rfl, rfl, ?_, ?_, ?_⟩
  · intro r h
    have hn : ¬ r ≤ MaxASCII := not_le.2 h
    have h1 : unicodeToLower uni r = uni.ToLower r := by
      unfold unicodeToLower
      rw [if_neg hn]
    have h2 : unicodeToLower uni 'A' = 'a' := rfl
    simp only [ToLower, List.map, h1, h2]
  · intro r h
    have hn : ¬ r ≤ MaxASCII := not_le.2 h
    have h1 : isSeparator uni ' ' = true := rfl
    have h2 : isSeparator uni 'a' = false := rfl
    have h3 : unicodeToTitle uni 'a' = 'A' := rfl
    have h4 : unicodeToTitle uni 'b' = 'B' := rfl
    simp only [Title, titleRunes, h1, h2, h3, h4, isSeparator_above_ascii uni r h, if_true]
    simp
  · intro r h
    have hn : ¬ r ≤ MaxASCII := not_le.2 h
    have h1 : isSeparator uni ' ' = true := rfl
    have h2 : unicodeToTitle uni r = uni.ToTitle r := by
      unfold unicodeToTitle
      rw [if_neg hn]
    simp only [Title, titleRunes, h1, h2, if_true]

/-! ## Objects the call does not own -/

/-- Claim C8: every object that exists when `UpdateTidbCluster` is called, the snapshots held
by the cache among them, has the same contents after the call: the call assigns only to the
caller's object, to which it assigns the status it already has, and to the copies it
allocates itself. -/
theorem UpdateTidbCluster_keeps_cached_objects {σ B S : Type} (uni : UnicodeTables)
    (c : Collaborators σ B S)
    (defaultRetry : Backoff) (w : World σ B S) (tc : Addr) (a : Addr) (ha : a < w.next) :
    (UpdateTidbCluster uni c defaultRetry w tc).2.heap a = w.heap a := by
  have key : w.next ≤ (retryUpdate c defaultRetry w tc).2.world.next ∧
      ((retryUpdate c defaultRetry w tc).2.tc = tc ∨
        w.next ≤ (retryUpdate c defaultRetry w tc).2.tc) ∧
      ∀ b, b < w.next → (retryUpdate c defaultRetry w tc).2.world.heap b = w.heap b := by
    unfold retryUpdate
    have hstep : ∀ f : Frame σ B S,
        (w.next ≤ f.world.next ∧ (f.tc = tc ∨ w.next ≤ f.tc) ∧
          ∀ b, b < w.next → f.world.heap b = w.heap b) →
        (w.next ≤ (updateFn c (w.heap tc).Namespace (w.heap tc).Name (w.heap tc).Status
            f).2.world.next ∧
          ((updateFn c (w.heap tc).Namespace (w.heap tc).Name (w.heap tc).Status f).2.tc = tc ∨
            w.next ≤ (updateFn c (w.heap tc).Namespace (w.heap tc).Name (w.heap tc).Status
              f).2.tc) ∧
          ∀ b, b < w.next →
            (updateFn c (w.heap tc).Namespace (w.heap tc).Name (w.heap tc).Status
              f).2.world.heap b = w.heap b) := by
      rintro f ⟨hnext, htc, hheap⟩
      have hwrite : ∀ b, b < w.next →
          Function.update f.world.heap f.tc (f.written (w.heap tc).Status) b = w.heap b := by
        intro b hb
        by_cases hbt : b = f.tc
        · subst hbt
          rw [Function.update_same]
          rcases htc with htc | htc
          · unfold Frame.written
            rw [hheap _ hb, htc]
          · exact absurd hb (Nat.not_lt.2 htc)
        · rw [Function.update_noteq hbt]
          exact hheap b hb
      rcases updateFn_cases c (w.heap tc).Namespace (w.heap tc).Name (w.heap tc).Status f with
        ⟨x1, r, -, h⟩ | ⟨x1, r, e, x2, u, -, -, h⟩ | ⟨x1, r, e, x2, e2, -, -, h⟩
      · rw [h]
        exact ⟨hnext, htc, hwrite⟩
      · rw [h]
        refine ⟨Nat.le_succ_of_le hnext, Or.inr hnext, ?_⟩
        intro b hb
        dsimp only
        rw [Function.update_noteq (Nat.ne_of_lt (Nat.lt_of_lt_of_le hb hnext))]
        exact hwrite b hb
      · rw [h]
        exact ⟨hnext, htc, hwrite⟩
    exact RetryOnConflict_rule defaultRetry _
      (fun _ f _ => w.next ≤ f.world.next ∧ (f.tc = tc ∨ w.next ≤ f.tc) ∧
        ∀ b, b < w.next → f.world.heap b = w.heap b)
      (fun _ f => w.next ≤ f.world.next ∧ (f.tc = tc ∨ w.next ≤ f.tc) ∧
        ∀ b, b < w.next → f.world.heap b = w.heap b)
      (fun _ f _ _ hI _ => hstep f hI)
      (fun _ f _ _ _ hI _ _ => hstep f hI)
      (fun _ f _ _ _ hI _ _ => hstep f hI)
      (fun _ _ hI => hI)
      { world := w, tc := tc, updateTC := none } ⟨le_refl _, Or.inl rfl, fun _ _ => rfl⟩
  obtain ⟨ev, -, -, -, hh⟩ := UpdateTidbCluster_log uni c defaultRetry w tc
  rw [hh]
  exact key.2.2 a ha

/-! ## A failed lookup -/

/-- Claim C9: when the store call of an attempt fails with `e` and the lister fails too, with
`e2`, the attempt returns the store error `e`; the lookup error goes to
`utilruntime.HandleError` only; the pointer `tc` and the object behind it are as they were
handed to the store; the following attempt hands the store the same record; and when `e` is a
conflict the retry loop goes on with the next attempt. -/
theorem updateFn_lookup_failure {σ B S : Type} (c : Collaborators σ B S) (ns tcName : String)
    (status : S) (f : Frame σ B S) (x1 x2 : σ) (r : Option (TidbCluster B S))
    (e e2 : GoError) (n : Nat) (last : Option GoError)
    (hU : c.Update f.world.ext ns (f.written status) = (x1, r, some e))
    (hG : c.Get x1 ns tcName = (x2, Sum.inl e2)) :
    (updateFn c ns tcName status f).1 = some e ∧
    (updateFn c ns tcName status f).2.tc = f.tc ∧
    (updateFn c ns tcName status f).2.world.heap
      = Function.update f.world.heap f.tc (f.written status) ∧
    (updateFn c ns tcName status f).2.world.heap f.tc = f.written status ∧
    (updateFn c ns tcName status f).2.world.next = f.world.next ∧
    (updateFn c ns tcName status f).2.world.since f.world
      = [Effect.storeUpdate ns (f.written status) r (some e),
         Effect.glogErrorf ("failed to update TidbCluster: [" ++ ns ++ "/" ++ tcName
          ++ "], error: " ++ e.Error),
         Effect.listerGet ns tcName (Sum.inl e2),
         Effect.handleError ("error getting updated TidbCluster " ++ ns ++ "/" ++ tcName
          ++ " from lister: " ++ e2.Error)] ∧
    storeWrites (World.since (updateFn c ns tcName status (updateFn c ns tcName status f).2).2.world
      (updateFn c ns tcName status f).2.world) = [f.written status] ∧
    (IsConflict e = true →
      backoffLoop (retryCondition (updateFn c ns tcName status)) (n + 2) (f, last)
        = backoffLoop (retryCondition (updateFn c ns tcName status)) (n + 1)
            ((updateFn c ns tcName status f).2, some e)) := by
  have h : updateFn c ns tcName status f = (some e,
      { world :=
          { ext := x2
            heap := Function.update f.world.heap f.tc (f.written status)
            next := f.world.next
            log := f.world.log ++
              [Effect.storeUpdate ns (f.written status) r (some e),
               Effect.glogErrorf ("failed to update TidbCluster: [" ++ ns ++ "/" ++ tcName
                ++ "], error: " ++ e.Error),
               Effect.listerGet ns tcName (Sum.inl e2),
               Effect.handleError ("error getting updated TidbCluster " ++ ns ++ "/" ++ tcName
                ++ " from lister: " ++ e2.Error)] }
        tc := f.tc
        updateTC := r }) := by
    rcases updateFn_cases c ns tcName status f with
      ⟨y1, r1, h1, -⟩ | ⟨y1, r1, e1, y2, u1, h1, h2, -⟩ | ⟨y1, r1, e1, y2, e3, h1, h2, h⟩
    · rw [hU] at h1
      simp at h1
    · rw [hU] at h1
      obtain ⟨rfl, rfl, rfl⟩ : x1 = y1 ∧ r = r1 ∧ e = e1 := by simpa using h1
      rw [hG] at h2
      simp at h2
    · rw [hU] at h1
      obtain ⟨rfl, rfl, rfl⟩ : x1 = y1 ∧ r = r1 ∧ e = e1 := by simpa using h1
      rw [hG] at h2
      obtain ⟨rfl, rfl⟩ : x2 = y2 ∧ e2 = e3 := by simpa using h2
      exact h
  refine ⟨by rw [h], by rw [h], by rw [h], ?_, by rw [h], ?_, ?_, ?_⟩
  · rw [h]
    exact Function.update_same _ _ _
  · rw [h]
    simp [World.since]
  · obtain ⟨extra1, h1, -, -, h4, -⟩ := updateFn_extends c ns tcName status
      (updateFn c ns tcName status f).2 (updateFn c ns tcName status f).2.world.log [] (by simp)
    rw [since_of_log_eq _ _ extra1 h1, h4]
    rw [h]
    simp [storeWrites, Frame.written]
  · intro hcf
    conv_lhs => rw [backoffLoop]
    simp [retryCondition, h, hcf]

/-! ## The fake control -/

theorem FakeTidbClusterControl.delegates_of_not_ready {ι T : Type}
    (indexerUpdate : ι → T → ι × Option GoError) (ssc : FakeTidbClusterControl ι) (tc : T)
    (h : ssc.updateTidbClusterTracker.errorReady = false) : ssc.delegates indexerUpdate tc := by
  unfold FakeTidbClusterControl.delegates FakeTidbClusterControl.UpdateTidbCluster
  simp [h]

theorem FakeTidbClusterControl.alwaysDelegates_of_disarmed {ι T : Type}
    (indexerUpdate : ι → T → ι × Option GoError) (later : List T) :
    ∀ ssc : FakeTidbClusterControl ι, ssc.updateTidbClusterTracker.err = none →
      FakeTidbClusterControl.alwaysDelegates indexerUpdate ssc later := by
  induction later with
  | nil => intro ssc _; trivial
  | cons tc later ih =>
    intro ssc h
    have hr : ssc.updateTidbClusterTracker.errorReady = false := by
      simp [requestTracker.errorReady, h]
    have hd := FakeTidbClusterControl.delegates_of_not_ready indexerUpdate ssc tc hr
    refine ⟨hd, ih _ ?_⟩
    rw [hd]
    simpa [requestTracker.inc] using h

/-- Claim C10: the fake is a fire-once state machine.  Every call adds one to `requests`, as
the last thing done to the tracker.  A call made when `errorReady` holds returns the input
record with the configured error, which is not nil, leaves the indexer alone and resets the
tracker before counting the call, after which every later call delegates to the indexer as
long as the fake is not configured again.  A call made when `errorReady` does not hold
delegates to the indexer, and a fake that was never configured delegates on every call. -/
theorem FakeTidbClusterControl_fire_once {ι T : Type}
    (indexerUpdate : ι → T → ι × Option GoError) (ssc : FakeTidbClusterControl ι) (tc : T) :
    ((ssc.UpdateTidbCluster indexerUpdate tc).2.updateTidbClusterTracker.requests
        = ssc.updateTidbClusterTracker.requests + 1) ∧
    (ssc.updateTidbClusterTracker.errorReady = true →
      ∃ e, ssc.updateTidbClusterTracker.err = some e ∧
        (ssc.UpdateTidbCluster indexerUpdate tc).1 = (tc, some e) ∧
        (ssc.UpdateTidbCluster indexerUpdate tc).2.TcIndexer = ssc.TcIndexer ∧
        (ssc.UpdateTidbCluster indexerUpdate tc).2.updateTidbClusterTracker
          = ssc.updateTidbClusterTracker.reset.inc ∧
        ∀ later : List T, FakeTidbClusterControl.alwaysDelegates indexerUpdate
          (ssc.UpdateTidbCluster indexerUpdate tc).2 later) ∧
    (ssc.updateTidbClusterTracker.errorReady = false → ssc.delegates indexerUpdate tc) ∧
    (∀ (indexer : ι) (later : List T), FakeTidbClusterControl.alwaysDelegates indexerUpdate
      (NewFakeTidbClusterControl indexer) later) := by
  refine ⟨?_, ?_, FakeTidbClusterControl.delegates_of_not_ready indexerUpdate ssc tc, ?_⟩
  · unfold FakeTidbClusterControl.UpdateTidbCluster
    by_cases h : ssc.updateTidbClusterTracker.errorReady = true
    · simp [h, requestTracker.inc, requestTracker.reset]
    · simp [h, requestTracker.inc]
  · intro h
    have herr : ssc.updateTidbClusterTracker.err.isSome = true := by
      simp only [requestTracker.errorReady, Bool.and_eq_true] at h
      exact h.1
    obtain ⟨e, he⟩ := Option.isSome_iff_exists.1 herr
    have hcall : ssc.UpdateTidbCluster indexerUpdate tc =
        ((tc, ssc.updateTidbClusterTracker.err),
          { ssc with updateTidbClusterTracker := ssc.updateTidbClusterTracker.reset.inc }) := by
      unfold FakeTidbClusterControl.UpdateTidbCluster
      simp [h]
    refine ⟨e, he, by rw [hcall, he], by rw [hcall], by rw [hcall], ?_⟩
    intro later
    apply FakeTidbClusterControl.alwaysDelegates_of_disarmed
    rw [hcall]
    rfl
  · intro indexer later
    exact FakeTidbClusterControl.alwaysDelegates_of_disarmed indexerUpdate later _ rfl

/-! ## The scenarios -/

/-- Witness of claim C1: with the caller's status `Scaling`, the cached status `Idle` and one
conflict at call 1, both writes carry `Scaling`, and the second write is the cached snapshot
with the status replaced. -/
theorem UpdateTidbCluster_writes_caller_status_witness :
    (∀ r ∈ storeWrites
        ((UpdateTidbCluster scenarioTables conflictOnce DefaultRetry scenarioWorld 0).2.since scenarioWorld),
      r.Status = (scenarioWorld.heap 0).Status) ∧
    storeWrites
        ((UpdateTidbCluster scenarioTables conflictOnce DefaultRetry scenarioWorld 0).2.since scenarioWorld)
      = [mkCluster "default" "cluster-a" "Scaling", mkCluster "default" "cluster-a" "Scaling"] ∧
    storeWrites (World.since
        (updateFn conflictOnce (scenarioWorld.heap 0).Namespace (scenarioWorld.heap 0).Name
          (scenarioWorld.heap 0).Status
          (updateFn conflictOnce (scenarioWorld.heap 0).Namespace (scenarioWorld.heap 0).Name
            (scenarioWorld.heap 0).Status scenarioFrame).2).2.world
        (updateFn conflictOnce (scenarioWorld.heap 0).Namespace (scenarioWorld.heap 0).Name
          (scenarioWorld.heap 0).Status scenarioFrame).2.world)
      = [{ Function.update scenarioFrame.world.heap scenarioFrame.tc
            (scenarioFrame.written (scenarioWorld.heap 0).Status) 1 with
            Status := (scenarioWorld.heap 0).Status }] ∧
    scenarioWorld.heap 1 = mkCluster "default" "cluster-a" "Idle" :=
  ⟨(UpdateTidbCluster_writes_caller_status scenarioTables conflictOnce DefaultRetry scenarioWorld 0).1,
    by decide,
    (UpdateTidbCluster_writes_caller_status scenarioTables conflictOnce DefaultRetry scenarioWorld 0).2
      scenarioFrame 1 1 none conflictErr 1 rfl rfl,
    by decide⟩

/-- Witness of claim C2: the store that always answers a conflict is called five times under
`retry.DefaultRetry`, and the conflict is returned. -/
theorem UpdateTidbCluster_always_conflict_witness :
    1 ≤ DefaultRetry.Steps ∧
    storeCalls ((UpdateTidbCluster scenarioTables alwaysConflict DefaultRetry scenarioWorld 0).2.since
      scenarioWorld) = DefaultRetry.Steps.toNat ∧
    ∃ r e, (storeAnswers ((UpdateTidbCluster scenarioTables alwaysConflict DefaultRetry scenarioWorld 0).2.since
        scenarioWorld)).getLast? = some (r, some e) ∧
      (UpdateTidbCluster scenarioTables alwaysConflict DefaultRetry scenarioWorld 0).1.2 = some e :=
  ⟨by decide,
    UpdateTidbCluster_always_conflict scenarioTables alwaysConflict DefaultRetry scenarioWorld 0 (by decide)
      (fun _ _ _ => ⟨conflictErr, rfl, rfl⟩)⟩

/-- Counterexample to claim C3: under `retry.DefaultRetry`, a store that always fails with an
error that is no conflict is called once, a store that always fails with a conflict five
times. -/
theorem UpdateTidbCluster_error_kinds_counterexample :
    storeCalls ((UpdateTidbCluster scenarioTables alwaysServerError DefaultRetry scenarioWorld 0).2.since
      scenarioWorld) = 1 ∧
    storeCalls ((UpdateTidbCluster scenarioTables alwaysConflict DefaultRetry scenarioWorld 0).2.since
      scenarioWorld) = 5 ∧
    DefaultRetry.Steps = 5 := by
  decide

/-- Witness of claim C3 as amended: the store that always fails with an error that is no
conflict is called once under `retry.DefaultRetry`. -/
theorem UpdateTidbCluster_stops_on_other_error_witness :
    1 ≤ DefaultRetry.Steps ∧
    storeCalls ((UpdateTidbCluster scenarioTables alwaysServerError DefaultRetry scenarioWorld 0).2.since
      scenarioWorld) = 1 :=
  ⟨by decide,
    (UpdateTidbCluster_stops_on_other_error scenarioTables alwaysServerError DefaultRetry scenarioWorld 0
      (by decide) (fun _ _ _ => ⟨serverErr, rfl, rfl⟩)).1⟩

/-- Counterexample to claim C4: with `k = 2`, a store that fails at call 2 only and succeeds
at every other call, under a budget of five, the first call succeeds and `UpdateTidbCluster`
makes one store call, not `k + 1 = 3`. -/
theorem UpdateTidbCluster_fail_once_counterexample :
    (1 ≤ 2 ∧ (2 : Int) ≤ DefaultRetry.Steps) ∧
    storeCalls ((UpdateTidbCluster scenarioTables conflictAtSecond DefaultRetry scenarioWorld 0).2.since
      scenarioWorld) = 1 ∧
    storeCalls ((UpdateTidbCluster scenarioTables conflictAtSecond DefaultRetry scenarioWorld 0).2.since
      scenarioWorld) ≠ 2 + 1 := by
  decide

/-- Witness of claim C4 as amended, `k = 1`: a conflict at call 1 and success at call 2 make
two store calls and a nil error. -/
theorem UpdateTidbCluster_succeeds_after_conflicts_witness :
    ((1 : Nat) : Int) < DefaultRetry.Steps ∧
    storeCalls ((UpdateTidbCluster scenarioTables conflictOnce DefaultRetry scenarioWorld 0).2.since
      scenarioWorld) = 1 + 1 ∧
    (UpdateTidbCluster scenarioTables conflictOnce DefaultRetry scenarioWorld 0).1.2 = none :=
  ⟨by decide,
    UpdateTidbCluster_succeeds_after_conflicts scenarioTables conflictOnce DefaultRetry scenarioWorld 0
      (fun n => n) 1 (by decide) rfl
      (fun x _ _ => by
        show (match (if x + 1 = 1 then some conflictErr else none) with
          | none => (x + 1, _, _)
          | some e => (x + 1, _, _)).1 = x + 1
        split <;> rfl)
      (fun _ _ _ => rfl)
      (fun x _ _ hx => by
        have h0 : x = 0 := Nat.lt_one_iff.1 hx
        subst h0
        exact ⟨conflictErr, rfl, rfl⟩)
      (fun x _ _ hx => by
        have h1 : x = 1 := hx
        subst h1
        rfl)⟩

/-- Counterexample to claim C5: when every store call fails with a conflict and answers a nil
object, `UpdateTidbCluster` returns that nil object with the conflict, while the working copy,
the object behind the final `tc`, is the cached snapshot with the caller's status. -/
theorem UpdateTidbCluster_returns_working_copy_counterexample :
    (UpdateTidbCluster scenarioTables alwaysConflict DefaultRetry scenarioWorld 0).1
      = (none, some conflictErr) ∧
    (retryUpdate alwaysConflict DefaultRetry scenarioWorld 0).2.world.heap
        (retryUpdate alwaysConflict DefaultRetry scenarioWorld 0).2.tc
      = mkCluster "default" "cluster-a" "Idle" ∧
    (UpdateTidbCluster scenarioTables alwaysConflict DefaultRetry scenarioWorld 0).1.1
      ≠ some ((retryUpdate alwaysConflict DefaultRetry scenarioWorld 0).2.world.heap
          (retryUpdate alwaysConflict DefaultRetry scenarioWorld 0).2.tc) := by
  decide

/-- Witness of claim C8: the cached snapshot at address 1 is the same after a call that read it
and wrote its copy. -/
theorem UpdateTidbCluster_keeps_cached_objects_witness :
    1 < scenarioWorld.next ∧
    (UpdateTidbCluster scenarioTables conflictOnce DefaultRetry scenarioWorld 0).2.heap 1
      = scenarioWorld.heap 1 :=
  ⟨by decide,
    UpdateTidbCluster_keeps_cached_objects scenarioTables conflictOnce DefaultRetry scenarioWorld 0 1
      (by decide)⟩

/-- Witness of claim C9: the first attempt against a store answering a conflict and a lister
answering an error returns the conflict and keeps `tc`, and the next attempt writes the same
record. -/
theorem updateFn_lookup_failure_witness :
    (updateFn conflictAndMiss "default" "cluster-a" "Scaling" scenarioFrame).1
      = some conflictErr ∧
    (updateFn conflictAndMiss "default" "cluster-a" "Scaling" scenarioFrame).2.tc
      = scenarioFrame.tc ∧
    storeWrites (World.since
        (updateFn conflictAndMiss "default" "cluster-a" "Scaling"
          (updateFn conflictAndMiss "default" "cluster-a" "Scaling" scenarioFrame).2).2.world
        (updateFn conflictAndMiss "default" "cluster-a" "Scaling" scenarioFrame).2.world)
      = [scenarioFrame.written "Scaling"] :=
  have h := updateFn_lookup_failure conflictAndMiss "default" "cluster-a" "Scaling"
    scenarioFrame 1 1 none conflictErr (GoError.other false "not found") 0 none rfl rfl
  ⟨h.1, h.2.1, h.2.2.2.2.2.2.1⟩

/-- Witness of claim C10: a fake configured with a conflict and trigger index 0 fails its first
call with the conflict, leaves the indexer empty, and delegates from then on. -/
theorem FakeTidbClusterControl_fire_once_witness :
    armedFake.updateTidbClusterTracker.errorReady = true ∧
    ∃ e, armedFake.updateTidbClusterTracker.err = some e ∧
      (armedFake.UpdateTidbCluster listIndexer "cluster-a").1 = ("cluster-a", some e) ∧
      (armedFake.UpdateTidbCluster listIndexer "cluster-a").2.TcIndexer = armedFake.TcIndexer ∧
      (armedFake.UpdateTidbCluster listIndexer "cluster-a").2.updateTidbClusterTracker
        = armedFake.updateTidbClusterTracker.reset.inc ∧
      ∀ later : List String, FakeTidbClusterControl.alwaysDelegates listIndexer
        (armedFake.UpdateTidbCluster listIndexer "cluster-a").2 later :=
  ⟨rfl, (FakeTidbClusterControl_fire_once listIndexer armedFake "cluster-a").2.1 rfl⟩

end TidbOperator
